import Mathlib

/-!
Verification of the BrownieBusiness order-tracking application.

The Python sources (src/app.py, src/models.py, src/gs_models.py,
src/google_sheets.py) are shallowly embedded below.  Monetary amounts
(`decimal.Decimal` values and SQL `Numeric(10,2)` columns) are modelled as
exact rationals (`ℚ`); where a claim is specifically about binary
floating-point behaviour, IEEE-754 binary64 rounding is modelled explicitly
(`roundB64`).  Request handlers become functions from a store state and the
submitted form fields to `Except String Store`, where `Except.error` models
"flash an error message and redirect without mutating the database".
-/

namespace BrownieBusiness

/-- Calendar date as stored in the `delivery_date` column
(src/models.py, `db.Date`). -/
structure DDate where
  year : ℤ
  month : ℕ
  day : ℕ
deriving DecidableEq

/-- Brownie variety (src/models.py, class `Variety`). -/
structure Variety where
  id : ℤ
  name : String
  default_price : ℚ
deriving DecidableEq

/-- Shop / customer (src/models.py, class `Shop`). -/
structure Shop where
  id : ℤ
  name : String
deriving DecidableEq

/-- Order (src/models.py, class `Order`).  A SQL `NULL` `paid_amount` is
modelled as 0, matching the coalescing
`float(order.paid_amount) if order.paid_amount else 0` applied at every use
site in src/app.py. -/
structure Order where
  id : ℤ
  variety_id : ℤ
  shop_id : ℤ
  quantity : ℤ
  price : ℚ
  delivery_date : DDate
  payment_status : String
  paid_amount : ℚ
deriving DecidableEq

/-- The relational store: the three tables of brownie_sales.db. -/
structure Store where
  varieties : List Variety
  shops : List Shop
  orders : List Order
deriving DecidableEq

/-- Order total, `order.price * order.quantity` (src/app.py, used at lines
77, 112, 236, 377, 574, 588, ...). -/
def orderTotal (o : Order) : ℚ := o.price * o.quantity

/-- Paid amount with the `NULL`-coalescing of
`float(order.paid_amount) if order.paid_amount else 0` (src/app.py line 237
and analogues): under the model `paid_amount : ℚ`, `NULL` is 0 and the
coalescing is the identity. -/
def orderPaid (o : Order) : ℚ := o.paid_amount

/-- Pending amount of one order, `order_total - paid_amt`
(src/app.py lines 238, 379, 770, 925). -/
def orderPending (o : Order) : ℚ := orderTotal o - orderPaid o

/-! ## C6: cascade deletion in the relational backend -/

/-- Route `delete_variety` (src/app.py lines 205-220) under the relational
backend: `db_session.delete(variety); db_session.commit()` together with the
relationship declaration
`orders = db.relationship('Order', backref='variety', lazy=True, cascade='all, delete-orphan')`
(src/models.py line 17), whose SQLAlchemy semantics is that deleting a
variety also deletes every order referencing it.  `Variety.query.get_or_404`
is the leading existence check. -/
def delete_variety (s : Store) (id : ℤ) : Except String Store :=
  if (s.varieties.find? (fun v => decide (v.id = id))).isNone then .error "404"
  else .ok { varieties := s.varieties.filter (fun v => decide (v.id ≠ id)),
             shops := s.shops,
             orders := s.orders.filter (fun o => decide (o.variety_id ≠ id)) }

/-- Route `delete_shop` (src/app.py lines 318-333) under the relational
backend, with the cascade declared on `Shop.orders` (src/models.py line 39). -/
def delete_shop (s : Store) (id : ℤ) : Except String Store :=
  if (s.shops.find? (fun sh => decide (sh.id = id))).isNone then .error "404"
  else .ok { varieties := s.varieties,
             shops := s.shops.filter (fun sh => decide (sh.id ≠ id)),
             orders := s.orders.filter (fun o => decide (o.shop_id ≠ id)) }

/-! ## C4: ingredient-cost derivation -/

/-- Brownie count per unit used by `cost_breakdown`
(src/app.py lines 458-464): a unit price of at least 15 counts as one
brownie, any lower price as half a brownie. -/
def browniesPerUnit (price : ℚ) : ℚ := if 15 ≤ price then 1 else 1/2

/-- Month filter of `cost_breakdown` (src/app.py lines 436-446): keep the
orders whose delivery date falls in the selected year and month. -/
def inMonth (y : ℤ) (m : ℕ) (o : Order) : Bool :=
  decide (o.delivery_date.year = y) && decide (o.delivery_date.month = m)

/-- Total brownie quantity for the selected month
(src/app.py lines 454-466): the accumulation loop
`total_brownies += brownies_per_unit * order_quantity` over the month's
orders, written as a map-sum. -/
def total_brownies (orders : List Order) (y : ℤ) (m : ℕ) : ℚ :=
  ((orders.filter (inMonth y m)).map (fun o => browniesPerUnit o.price * o.quantity)).sum

/-- Result record of the `cost_breakdown` POST branch
(src/app.py lines 468-517). -/
structure CostBreakdown where
  tot_brownies : ℚ
  batches_of_4 : ℚ
  eggs_needed : ℚ
  sugar_needed_kg : ℚ
  brown_sugar_needed_kg : ℚ
  maida_needed_kg : ℚ
  egg_cost : ℚ
  sugar_cost : ℚ
  brown_sugar_cost : ℚ
  maida_cost : ℚ
  total_cost : ℚ
deriving DecidableEq

/-- Route `cost_breakdown`, POST branch (src/app.py lines 448-517): the
quantity and cost computation, with the float arithmetic of the source
modelled exactly over ℚ. -/
def cost_breakdown (orders : List Order) (y : ℤ) (m : ℕ)
    (egg_price sugar_price brown_sugar_price maida_price : ℚ) : CostBreakdown :=
  let tb := total_brownies orders y m
  let batches := tb / 4
  let eggs := batches
  let sugarKg := batches * 55 / 1000
  let brownKg := batches * 55 / 1000
  let maidaKg := batches * 120 / 1000
  let eggCost := eggs * egg_price
  let sugarCost := sugarKg * sugar_price
  let brownCost := brownKg * brown_sugar_price
  let maidaCost := maidaKg * maida_price
  { tot_brownies := tb
    batches_of_4 := batches
    eggs_needed := eggs
    sugar_needed_kg := sugarKg
    brown_sugar_needed_kg := brownKg
    maida_needed_kg := maidaKg
    egg_cost := eggCost
    sugar_cost := sugarCost
    brown_sugar_cost := brownCost
    maida_cost := maidaCost
    total_cost := eggCost + sugarCost + brownCost + maidaCost }

/-! ## Theorems for C6 and C4 -/

/-- C6: in the relational backend, a successful `delete_variety id` leaves no
order with `variety_id = id`, leaves shops untouched, keeps exactly the
orders not referencing the deleted variety and exactly the other varieties;
likewise `delete_shop` deletes exactly the shop's orders. -/
theorem C6_delete_cascade (s : Store) (id : ℤ) :
    (∀ s', delete_variety s id = .ok s' →
      (∀ o ∈ s'.orders, o.variety_id ≠ id) ∧
      s'.shops = s.shops ∧
      (∀ o : Order, o ∈ s'.orders ↔ o ∈ s.orders ∧ o.variety_id ≠ id) ∧
      (∀ v : Variety, v ∈ s'.varieties ↔ v ∈ s.varieties ∧ v.id ≠ id)) ∧
    (∀ s', delete_shop s id = .ok s' →
      (∀ o ∈ s'.orders, o.shop_id ≠ id) ∧
      s'.varieties = s.varieties ∧
      (∀ o : Order, o ∈ s'.orders ↔ o ∈ s.orders ∧ o.shop_id ≠ id) ∧
      (∀ sh : Shop, sh ∈ s'.shops ↔ sh ∈ s.shops ∧ sh.id ≠ id)) := by
  constructor
  · intro s' h
    unfold delete_variety at h
    split at h
    · exact absurd h (by simp)
    · have hs' : s' = { varieties := s.varieties.filter (fun v => decide (v.id ≠ id)),
                        shops := s.shops,
                        orders := s.orders.filter (fun o => decide (o.variety_id ≠ id)) } := by
        cases h; rfl
      subst hs'
      refine ⟨?_, rfl, ?_, ?_⟩
      · intro o ho
        simp only [List.mem_filter, decide_eq_true_eq] at ho
        exact ho.2
      · intro o; simp [List.mem_filter]
      · intro v; simp [List.mem_filter]
  · intro s' h
    unfold delete_shop at h
    split at h
    · exact absurd h (by simp)
    · have hs' : s' = { varieties := s.varieties,
                        shops := s.shops.filter (fun sh => decide (sh.id ≠ id)),
                        orders := s.orders.filter (fun o => decide (o.shop_id ≠ id)) } := by
        cases h; rfl
      subst hs'
      refine ⟨?_, rfl, ?_, ?_⟩
      · intro o ho
        simp only [List.mem_filter, decide_eq_true_eq] at ho
        exact ho.2
      · intro o; simp [List.mem_filter]
      · intro sh; simp [List.mem_filter]

/-- Concrete instantiation of `C6_delete_cascade`: deleting variety 1 from a
two-variety store with orders on both leaves the shops table unchanged. -/
theorem C6_delete_cascade_witness :
    (Store.mk [⟨2, "Walnut", 30⟩] [⟨1, "Cafe A"⟩]
      [⟨2, 2, 1, 3, 30, ⟨2024, 5, 2⟩, "unpaid", 0⟩]).shops
    = (Store.mk [⟨1, "Classic", 25⟩, ⟨2, "Walnut", 30⟩] [⟨1, "Cafe A"⟩]
      [⟨1, 1, 1, 2, 25, ⟨2024, 5, 1⟩, "unpaid", 0⟩,
       ⟨2, 2, 1, 3, 30, ⟨2024, 5, 2⟩, "unpaid", 0⟩]).shops :=
  ((C6_delete_cascade
      (Store.mk [⟨1, "Classic", 25⟩, ⟨2, "Walnut", 30⟩] [⟨1, "Cafe A"⟩]
        [⟨1, 1, 1, 2, 25, ⟨2024, 5, 1⟩, "unpaid", 0⟩,
         ⟨2, 2, 1, 3, 30, ⟨2024, 5, 2⟩, "unpaid", 0⟩]) 1).1
    (Store.mk [⟨2, "Walnut", 30⟩] [⟨1, "Cafe A"⟩]
      [⟨2, 2, 1, 3, 30, ⟨2024, 5, 2⟩, "unpaid", 0⟩]) rfl).2.1

/-- C4: for every selected month the cost breakdown satisfies the stated
equations: total brownies is the sum over the month's orders of
quantity times (1 if unit price ≥ 15 else 1/2); batches are a quarter of
that; eggs equal the batches; sugar and brown sugar are 55 g per batch and
maida 120 g per batch (converted to kg); and the total cost is the sum of
the four quantity-times-price products. -/
theorem C4_cost_breakdown (orders : List Order) (y : ℤ) (m : ℕ)
    (pe ps pb pm : ℚ) :
    (cost_breakdown orders y m pe ps pb pm).tot_brownies =
      ((orders.filter (inMonth y m)).map
        (fun o => (o.quantity : ℚ) * (if 15 ≤ o.price then 1 else 1/2))).sum ∧
    (cost_breakdown orders y m pe ps pb pm).batches_of_4 =
      (cost_breakdown orders y m pe ps pb pm).tot_brownies / 4 ∧
    (cost_breakdown orders y m pe ps pb pm).eggs_needed =
      (cost_breakdown orders y m pe ps pb pm).batches_of_4 ∧
    (cost_breakdown orders y m pe ps pb pm).sugar_needed_kg =
      (cost_breakdown orders y m pe ps pb pm).batches_of_4 * 55 / 1000 ∧
    (cost_breakdown orders y m pe ps pb pm).brown_sugar_needed_kg =
      (cost_breakdown orders y m pe ps pb pm).batches_of_4 * 55 / 1000 ∧
    (cost_breakdown orders y m pe ps pb pm).maida_needed_kg =
      (cost_breakdown orders y m pe ps pb pm).batches_of_4 * 120 / 1000 ∧
    (cost_breakdown orders y m pe ps pb pm).total_cost =
      (cost_breakdown orders y m pe ps pb pm).eggs_needed * pe
      + (cost_breakdown orders y m pe ps pb pm).sugar_needed_kg * ps
      + (cost_breakdown orders y m pe ps pb pm).brown_sugar_needed_kg * pb
      + (cost_breakdown orders y m pe ps pb pm).maida_needed_kg * pm := by
  refine ⟨?_, rfl, rfl, rfl, rfl, rfl, rfl⟩
  unfold cost_breakdown total_brownies browniesPerUnit
  simp only
  congr 1
  apply List.map_congr_left
  intro o _
  by_cases h : 15 ≤ o.price <;> simp [h, mul_comm]

/-! ## C3: pending amounts in views and reports -/

/-- Shops view (src/app.py lines 228-247): per shop, the loop accumulating
`total_pending += pending_amt` and `unpaid_count += 1` over the shop's
orders whose pending amount is positive. -/
def shopsViewPending (orders : List Order) (shopId : ℤ) : ℚ × ℕ :=
  (orders.filter (fun o => decide (o.shop_id = shopId))).foldl
    (fun acc o =>
      if 0 < orderPending o then (acc.1 + orderPending o, acc.2 + 1) else acc)
    (0, 0)

/-- Report aggregate `total_sales = sum(float(order.price * order.quantity))`
(src/app.py line 574). -/
def report_total_sales (orders : List Order) : ℚ := (orders.map orderTotal).sum

/-- Report aggregate `total_paid` (src/app.py line 575). -/
def report_total_paid (orders : List Order) : ℚ := (orders.map orderPaid).sum

/-- Report aggregate `total_pending = total_sales - total_paid`
(src/app.py line 576). -/
def report_total_pending (orders : List Order) : ℚ :=
  report_total_sales orders - report_total_paid orders

/-- One line of the bill rendered by `shop_bill`
(src/app.py lines 773-778). -/
structure BillEntry where
  ord : Order
  total : ℚ
  paid : ℚ
  pending : ℚ
deriving DecidableEq

/-- Route `shop_bill` (src/app.py lines 756-782): the entries with positive
pending amount among the shop's orders (the date-descending display sort does
not affect membership or sums and is omitted from the model). -/
def shop_bill (orders : List Order) (shopId : ℤ) : List BillEntry :=
  (orders.filter (fun o => decide (o.shop_id = shopId))).filterMap
    (fun o =>
      if 0 < orderPending o then
        some ⟨o, orderTotal o, orderPaid o, orderPending o⟩
      else none)

/-- Accumulated `total_pending` of the bill (src/app.py line 779). -/
def shop_bill_total_pending (orders : List Order) (shopId : ℤ) : ℚ :=
  ((shop_bill orders shopId).map (fun e => e.pending)).sum

/-- The payment invariant stated by the spec's data-model section: paid
amount is 0 when unpaid, the full total when paid, and strictly between 0
and the total when partial. -/
def orderPaymentInv (o : Order) : Prop :=
  (o.payment_status = "unpaid" → o.paid_amount = 0) ∧
  (o.payment_status = "paid" → o.paid_amount = orderTotal o) ∧
  (o.payment_status = "partial" → 0 < o.paid_amount ∧ o.paid_amount < orderTotal o)

instance : DecidablePred orderPaymentInv := fun o => by
  unfold orderPaymentInv
  infer_instance

/-- The payment invariant over every order of the store. -/
def storeInv (s : Store) : Prop := ∀ o ∈ s.orders, orderPaymentInv o

instance (s : Store) : Decidable (storeInv s) := by
  unfold storeInv
  infer_instance

/-- Generic accumulation lemma: the shops-view fold adds exactly the sum of
the positive pending amounts to its accumulator. -/
theorem shopsView_fold_eq (L : List Order) (a : ℚ) (n : ℕ) :
    (L.foldl
      (fun acc o =>
        if 0 < orderPending o then (acc.1 + orderPending o, acc.2 + 1) else acc)
      (a, n)).1
    = a + ((L.filterMap
        (fun o => if 0 < orderPending o then some (orderPending o) else none)).sum) := by
  induction L generalizing a n with
  | nil => simp
  | cons o L ih =>
    by_cases h : 0 < orderPending o
    · simp [List.foldl_cons, List.filterMap_cons, h, ih, add_assoc]
    · simp [List.foldl_cons, List.filterMap_cons, h, ih]

/-- When every pending amount is nonnegative, summing only the positive
pending amounts is the same as summing all of them. -/
theorem posPending_sum_eq (L : List Order) (h : ∀ o ∈ L, 0 ≤ orderPending o) :
    (L.filterMap
      (fun o => if 0 < orderPending o then some (orderPending o) else none)).sum
    = (L.map orderPending).sum := by
  induction L with
  | nil => simp
  | cons o L ih =>
    have hL := fun x hx => h x (List.mem_cons_of_mem _ hx)
    by_cases hp : 0 < orderPending o
    · simp [List.filterMap_cons, hp, ih hL]
    · have h0 : orderPending o = 0 :=
        le_antisymm (not_lt.1 hp) (h o (List.mem_cons_self _ _))
      simp [List.filterMap_cons, hp, ih hL, h0]

/-- Sum of differences is the difference of sums. -/
theorem sum_map_pending (L : List Order) :
    (L.map orderPending).sum = (L.map orderTotal).sum - (L.map orderPaid).sum := by
  induction L with
  | nil => simp
  | cons o L ih =>
    simp only [List.map_cons, List.sum_cons, ih, orderPending]
    ring

/-- C3: every bill entry carries total = price × quantity,
pending = total − paid and a positive pending amount; in the reports
total_pending = total_sales − total_paid; the shops view's pending balance
for a shop equals the bill's accumulated pending; and under the payment
invariant (with the three legal statuses and nonnegative totals) that
balance equals the shop's total sales minus total paid. -/
theorem C3_pending_amounts (orders : List Order) (shopId : ℤ) :
    (∀ e ∈ shop_bill orders shopId,
        e.total = e.ord.price * e.ord.quantity ∧
        e.pending = e.total - e.paid ∧ 0 < e.pending) ∧
    report_total_pending orders = report_total_sales orders - report_total_paid orders ∧
    (shopsViewPending orders shopId).1 = shop_bill_total_pending orders shopId ∧
    ((∀ o ∈ orders, orderPaymentInv o) →
     (∀ o ∈ orders, o.payment_status = "paid" ∨ o.payment_status = "unpaid" ∨
        o.payment_status = "partial") →
     (∀ o ∈ orders, 0 ≤ orderTotal o) →
     (shopsViewPending orders shopId).1 =
       report_total_sales (orders.filter (fun o => decide (o.shop_id = shopId)))
       - report_total_paid (orders.filter (fun o => decide (o.shop_id = shopId)))) := by
  have hfold := shopsView_fold_eq (orders.filter (fun o => decide (o.shop_id = shopId))) 0 0
  refine ⟨?_, rfl, ?_, ?_⟩
  · intro e he
    unfold shop_bill at he
    rw [List.mem_filterMap] at he
    obtain ⟨o, _, ho⟩ := he
    split at ho
    · cases ho
      exact ⟨rfl, by simp [orderPending], by assumption⟩
    · cases ho
  · unfold shopsViewPending shop_bill_total_pending shop_bill
    rw [hfold, zero_add]
    rw [List.map_filterMap]
    congr 1
    apply List.filterMap_congr
    intro o _
    by_cases h : 0 < orderPending o <;> simp [h]
  · intro hinv hstat htot
    unfold shopsViewPending
    rw [hfold, zero_add]
    have hnn : ∀ o ∈ orders.filter (fun o => decide (o.shop_id = shopId)),
        0 ≤ orderPending o := by
      intro o ho
      have hom := List.mem_of_mem_filter ho
      have h1 := hinv o hom
      rcases hstat o hom with h | h | h
      · have := h1.2.1 h
        simp [orderPending, orderPaid, this]
      · have := h1.1 h
        simp [orderPending, orderPaid, this, htot o hom]
      · have := (h1.2.2 h).2
        simp [orderPending, orderPaid]
        linarith
    rw [posPending_sum_eq _ hnn, sum_map_pending]
    rfl

/-- Concrete instantiation of `C3_pending_amounts`: for a two-order store
where one order is partially paid, the shops-view pending balance equals the
shop's sales minus its payments. -/
theorem C3_pending_amounts_witness :
    (shopsViewPending
      [⟨1, 1, 1, 2, 25, ⟨2024, 5, 1⟩, "partial", 20⟩,
       ⟨2, 1, 1, 1, 30, ⟨2024, 5, 2⟩, "unpaid", 0⟩] 1).1 =
    report_total_sales
      ([⟨1, 1, 1, 2, 25, ⟨2024, 5, 1⟩, "partial", 20⟩,
        ⟨2, 1, 1, 1, 30, ⟨2024, 5, 2⟩, "unpaid", 0⟩].filter
          (fun o => decide (o.shop_id = 1)))
    - report_total_paid
      ([⟨1, 1, 1, 2, 25, ⟨2024, 5, 1⟩, "partial", 20⟩,
        ⟨2, 1, 1, 1, 30, ⟨2024, 5, 2⟩, "unpaid", 0⟩].filter
          (fun o => decide (o.shop_id = 1))) :=
  (C3_pending_amounts
    [⟨1, 1, 1, 2, 25, ⟨2024, 5, 1⟩, "partial", 20⟩,
     ⟨2, 1, 1, 1, 30, ⟨2024, 5, 2⟩, "unpaid", 0⟩] 1).2.2.2
    (by
      intro o ho
      simp only [List.mem_cons, List.not_mem_nil, or_false] at ho
      rcases ho with rfl | rfl
      · exact ⟨fun h => absurd h (by decide), fun h => absurd h (by decide),
          fun _ => by norm_num [orderTotal]⟩
      · exact ⟨fun _ => rfl, fun h => absurd h (by decide),
          fun h => absurd h (by decide)⟩)
    (by
      intro o ho
      simp only [List.mem_cons, List.not_mem_nil, or_false] at ho
      rcases ho with rfl | rfl
      · exact Or.inr (Or.inr rfl)
      · exact Or.inr (Or.inl rfl))
    (by
      intro o ho
      simp only [List.mem_cons, List.not_mem_nil, or_false] at ho
      rcases ho with rfl | rfl <;> norm_num [orderTotal])

/-! ## C5: shop-name uniqueness -/

/-- Python's `str.strip()` with no argument: remove leading and trailing
whitespace (used as `request.form.get('name', '').strip()`,
src/app.py lines 256, 286). -/
def pyStrip (s : String) : String :=
  ⟨((s.data.dropWhile Char.isWhitespace).reverse.dropWhile Char.isWhitespace).reverse⟩

/-- Case folding of a string, used only to state what a case-insensitive
name collision would be. -/
def lowerStr (s : String) : String := ⟨s.data.map Char.toLower⟩

/-- Route `add_shop` (src/app.py lines 252-278): strip the name, require it
nonempty, reject when `Shop.query.filter_by(name=name).first()` finds an
existing shop with exactly that name, otherwise insert (the new primary key
is the autoincrement value supplied by the database). -/
def add_shop (s : Store) (rawName : String) (newId : ℤ) : Except String Store :=
  if pyStrip rawName = "" then .error "Name is required"
  else
    match s.shops.find? (fun sh => decide (sh.name = pyStrip rawName)) with
    | some _ => .error "A shop/customer with this name already exists"
    | none => .ok { s with shops := s.shops ++ [⟨newId, pyStrip rawName⟩] }

/-- In-place rename performed by `update_shop`'s relational branch
(`shop.name = name; db_session.commit()`, src/app.py lines 304-306): the
shop fetched by primary key gets the new name. -/
def renameShopList (shops : List Shop) (id : ℤ) (name : String) : List Shop :=
  shops.map (fun sh => if sh.id = id then { sh with name := name } else sh)

/-- Route `update_shop` (src/app.py lines 281-315), relational branch:
`get_or_404` on the shop, strip, nonempty check, duplicate check excluding
the shop itself (`existing and existing.id != id`), then rename in place. -/
def update_shop (s : Store) (id : ℤ) (rawName : String) : Except String Store :=
  if (s.shops.find? (fun sh => decide (sh.id = id))).isNone then .error "404"
  else
    if pyStrip rawName = "" then .error "Name is required"
    else
      match s.shops.find? (fun sh => decide (sh.name = pyStrip rawName)) with
      | some ex =>
        if ex.id ≠ id then .error "A shop/customer with this name already exists"
        else .ok { s with shops := renameShopList s.shops id (pyStrip rawName) }
      | none => .ok { s with shops := renameShopList s.shops id (pyStrip rawName) }

/-- C5 counterexample: the duplicate check of `add_shop` is an exact string
match, so a name differing only in letter case is accepted: after adding
"Cafe", adding "cafe" also succeeds, leaving two shops whose names are equal
up to case. -/
theorem C5_counterexample :
    add_shop { varieties := [], shops := [], orders := [] } "Cafe" 1
      = .ok { varieties := [], shops := [⟨1, "Cafe"⟩], orders := [] } ∧
    add_shop { varieties := [], shops := [⟨1, "Cafe"⟩], orders := [] } "cafe" 2
      = .ok { varieties := [], shops := [⟨1, "Cafe"⟩, ⟨2, "cafe"⟩], orders := [] } ∧
    "Cafe" ≠ "cafe" ∧ lowerStr "Cafe" = lowerStr "cafe" :=
  ⟨rfl, rfl, by decide, rfl⟩

/-- C5 amended: shop-name uniqueness is case-sensitive.  Under pairwise
distinct ids and names, `add_shop` fails whenever the stripped submitted
name exactly equals an existing shop's name, a successful `add_shop`
preserves pairwise distinct names, `update_shop` fails whenever another
shop already carries exactly the submitted name, and a successful
`update_shop` preserves pairwise distinct names. -/
theorem C5_exact_name_uniqueness (s : Store) (rawName : String) (newId id : ℤ) :
    s.shops.Pairwise (fun a b => a.id ≠ b.id) →
    s.shops.Pairwise (fun a b => a.name ≠ b.name) →
    ((∃ sh ∈ s.shops, sh.name = pyStrip rawName) →
      ∀ s', add_shop s rawName newId ≠ .ok s') ∧
    (∀ s', add_shop s rawName newId = .ok s' →
      s'.shops.Pairwise (fun a b => a.name ≠ b.name)) ∧
    ((∃ sh ∈ s.shops, sh.name = pyStrip rawName ∧ sh.id ≠ id) →
      ∀ s', update_shop s id rawName ≠ .ok s') ∧
    (∀ s', update_shop s id rawName = .ok s' →
      s'.shops.Pairwise (fun a b => a.name ≠ b.name)) := by
  intro hids hnames
  have hsym : Symmetric (fun a b : Shop => a.name ≠ b.name) := fun a b h => h.symm
  refine ⟨?_, ?_, ?_, ?_⟩
  · rintro ⟨sh, hmem, hname⟩ s' hok
    unfold add_shop at hok
    split at hok
    · exact absurd hok (by simp)
    · have hfind : (s.shops.find? (fun x => decide (x.name = pyStrip rawName))).isSome :=
        List.find?_isSome.2 ⟨sh, hmem, by simpa using hname⟩
      rcases h : s.shops.find? (fun x => decide (x.name = pyStrip rawName)) with _ | ex
      · rw [h] at hfind
        simp at hfind
      · rw [h] at hok
        exact absurd hok (by simp)
  · intro s' hok
    unfold add_shop at hok
    split at hok
    · exact absurd hok (by simp)
    · rcases h : s.shops.find? (fun x => decide (x.name = pyStrip rawName)) with _ | ex
      · rw [h] at hok
        have hnone : ∀ x ∈ s.shops, x.name ≠ pyStrip rawName := fun x hx => by
          simpa using List.find?_eq_none.1 h x hx
        cases hok
        rw [List.pairwise_append]
        refine ⟨hnames, by simp, ?_⟩
        intro a ha b hb
        simp only [List.mem_singleton] at hb
        subst hb
        exact hnone a ha
      · rw [h] at hok
        exact absurd hok (by simp)
  · rintro ⟨sh, hmem, hname, hid⟩ s' hok
    unfold update_shop at hok
    split at hok
    · exact absurd hok (by simp)
    · split at hok
      · exact absurd hok (by simp)
      · rcases h : s.shops.find? (fun x => decide (x.name = pyStrip rawName)) with _ | ex
        · have hnone : ∀ x ∈ s.shops, x.name ≠ pyStrip rawName := fun x hx => by
            simpa using List.find?_eq_none.1 h x hx
          exact absurd hname (hnone sh hmem)
        · rw [h] at hok
          have hexmem : ex ∈ s.shops ∧ ex.name = pyStrip rawName := by
            have h1 := List.find?_some h
            have h2 := List.mem_of_find?_eq_some h
            exact ⟨h2, by simpa using h1⟩
          have hexeq : ex = sh := by
            by_contra hne
            exact (hnames.forall hsym hexmem.1 hmem hne)
              (hexmem.2.trans hname.symm)
          have hexid2 : ex.id ≠ id := by rw [hexeq]; exact hid
          split at hok
          · rename_i val heq
            have hval : val = ex := by injection heq with h2; exact h2.symm
            rw [hval] at hok
            rw [if_pos hexid2] at hok
            exact absurd hok (by simp)
          · rename_i heq
            exact absurd heq (by simp)
  · intro s' hok
    unfold update_shop at hok
    split at hok
    · exact absurd hok (by simp)
    · split at hok
      · exact absurd hok (by simp)
      · have key : (∀ x ∈ s.shops, x.id ≠ id → x.name ≠ pyStrip rawName) →
            s'.shops = renameShopList s.shops id (pyStrip rawName) →
            s'.shops.Pairwise (fun a b => a.name ≠ b.name) := by
          intro hother hs'
          rw [hs']
          unfold renameShopList
          rw [List.pairwise_map]
          have hcomb := hids.and hnames
          refine hcomb.imp_of_mem ?_
          intro a b ha hb hab
          by_cases haid : a.id = id
          · have hbid : b.id ≠ id := by
              rw [haid] at hab
              exact fun hb' => hab.1 hb'.symm
            simp only [if_pos haid, if_neg hbid]
            exact fun heq => (hother b hb hbid) heq.symm
          · by_cases hbid : b.id = id
            · simp only [if_neg haid, if_pos hbid]
              exact hother a ha haid
            · simp only [if_neg haid, if_neg hbid]
              exact hab.2
        rcases h : s.shops.find? (fun x => decide (x.name = pyStrip rawName)) with _ | ex
        · rw [h] at hok
          have hnone : ∀ x ∈ s.shops, x.name ≠ pyStrip rawName := fun x hx => by
            simpa using List.find?_eq_none.1 h x hx
          cases hok
          exact key (fun x hx _ => hnone x hx) rfl
        · rw [h] at hok
          split at hok
          · rename_i val heq
            have hval : val = ex := by injection heq with h2; exact h2.symm
            rw [hval] at hok
            have hexmem : ex ∈ s.shops ∧ ex.name = pyStrip rawName := by
              have h1 := List.find?_some h
              have h2 := List.mem_of_find?_eq_some h
              exact ⟨h2, by simpa using h1⟩
            by_cases hexid : ex.id ≠ id
            · rw [if_pos hexid] at hok
              exact absurd hok (by simp)
            · have hexid' : ex.id = id := not_not.1 hexid
              rw [if_neg hexid] at hok
              cases hok
              refine key ?_ rfl
              intro x hx hxid hxname
              have hxex : x ≠ ex := by
                intro hxe
                exact hxid (by rw [hxe]; exact hexid')
              exact (hnames.forall hsym hx hexmem.1 hxex) (hxname.trans hexmem.2.symm)
          · rename_i heq
            exact absurd heq (by simp)

/-- Concrete instantiation of `C5_exact_name_uniqueness`: renaming shop 2 to
a fresh name keeps all shop names pairwise distinct. -/
theorem C5_exact_name_uniqueness_witness :
    (Store.mk [] [⟨1, "Cafe A"⟩, ⟨2, "Cafe C"⟩] []).shops.Pairwise
      (fun a b => a.name ≠ b.name) :=
  ((C5_exact_name_uniqueness (Store.mk [] [⟨1, "Cafe A"⟩, ⟨2, "Cafe B"⟩] [])
      "Cafe C" 3 2 (by decide) (by decide)).2.2.2
    (Store.mk [] [⟨1, "Cafe A"⟩, ⟨2, "Cafe C"⟩] []) rfl)

/-! ## C7-C9: the spreadsheet backend (src/google_sheets.py) -/

/-- Outcome of one network attempt against the Sheets API as distinguished
by the handlers in src/google_sheets.py: success, an HTTP 429 rate limit,
an SSL/EOF/connection error, or any other exception. -/
inductive NetResult where
  | ok : NetResult
  | rateLimit : NetResult
  | connError : NetResult
  | otherError : NetResult
deriving DecidableEq

/-- Result of a retry loop: whether it returned normally, how many attempts
were made, and the waits (in seconds) slept between attempts. -/
structure RetryOutcome where
  res : Except Unit Unit
  attempts : ℕ
  waits : List ℕ

/-- The retry loop shared by `_read_sheet`, `_append_sheet` and
`_update_row` (src/google_sheets.py lines 178-218, 248-287, 341-378):
`for attempt in range(retry_count)`, waiting `(attempt + 1) * 2` seconds on
a rate limit and `(attempt + 1) * 3` seconds on a connection error while
further attempts remain, and raising immediately otherwise (other errors
are never retried).  `trace.getD i .otherError` is the outcome of attempt
`i`; `remaining` counts the loop iterations left. -/
def runRetryGo (attempt remaining : ℕ) (trace : List NetResult) : RetryOutcome :=
  match remaining with
  | 0 => ⟨.error (), 0, []⟩
  | r + 1 =>
    match trace.getD attempt .otherError with
    | .ok => ⟨.ok (), 1, []⟩
    | .rateLimit =>
      if r = 0 then ⟨.error (), 1, []⟩
      else
        ⟨(runRetryGo (attempt + 1) r trace).res,
         (runRetryGo (attempt + 1) r trace).attempts + 1,
         (attempt + 1) * 2 :: (runRetryGo (attempt + 1) r trace).waits⟩
    | .connError =>
      if r = 0 then ⟨.error (), 1, []⟩
      else
        ⟨(runRetryGo (attempt + 1) r trace).res,
         (runRetryGo (attempt + 1) r trace).attempts + 1,
         (attempt + 1) * 3 :: (runRetryGo (attempt + 1) r trace).waits⟩
    | .otherError => ⟨.error (), 1, []⟩

/-- The retry loop entered with `retry_count` iterations
(`retry_count=3` at every call site). -/
def runRetry (retry_count : ℕ) (trace : List NetResult) : RetryOutcome :=
  runRetryGo 0 retry_count trace

/-- State of the spreadsheet backend: the remote sheet contents, the local
read cache `self._cache` and its timestamps `self._cache_timestamp`
(src/google_sheets.py lines 42-44).  Wall-clock times are rationals in
seconds. -/
structure GSState where
  sheets : List (String × List (List String))
  cache : List (String × List (List String))
  cacheTs : List (String × ℚ)

/-- Cache key of a read, `f"{sheet_name}_{range_name or 'full'}"`
(src/google_sheets.py line 160); a full-sheet read passes `none`. -/
def cacheKey (sheet : String) (rng : Option String) : String :=
  sheet ++ "_" ++ rng.getD "full"

/-- The `CACHE_TTL` class attribute (src/google_sheets.py line 38):
`int(os.getenv('GOOGLE_SHEETS_CACHE_TTL', 300))`, modelled at its default
value of 300 seconds. -/
def CACHE_TTL : ℚ := 300

/-- Python's `str.startswith`, evaluated on the underlying character
lists. -/
def strStartsWith (s pre : String) : Bool := pre.data.isPrefixOf s.data

/-- Remove one key from an association list (dict `.pop(key, None)` /
reassignment). -/
def eraseKey {α : Type} (key : String) (l : List (String × α)) : List (String × α) :=
  l.filter (fun kv => decide (kv.1 ≠ key))

/-- Set one key in an association list (dict assignment). -/
def setKey {α : Type} (key : String) (v : α) (l : List (String × α)) : List (String × α) :=
  (key, v) :: eraseKey key l

/-- `_clear_cache(sheet_name)` (src/google_sheets.py lines 68-78): drop
every cache entry and timestamp whose key starts with
`f"{sheet_name}_"`. -/
def clear_cache (st : GSState) (sheet : String) : GSState :=
  { st with
    cache := st.cache.filter (fun kv => !strStartsWith kv.1 (sheet ++ "_")),
    cacheTs := st.cacheTs.filter (fun kv => !strStartsWith kv.1 (sheet ++ "_")) }

/-- `_is_cache_valid` (src/google_sheets.py lines 85-90): an entry is valid
when it has a timestamp and its age `now - ts` is strictly below
`CACHE_TTL`. -/
def is_cache_valid (st : GSState) (key : String) (now : ℚ) : Bool :=
  match st.cacheTs.lookup key with
  | none => false
  | some ts => decide (now - ts < CACHE_TTL)

/-- Result of `_read_sheet`: the rows returned (an empty list both for an
empty sheet and after a swallowed final error, src/google_sheets.py
lines 220-222), the new backend state, and the attempt/wait accounting of
the retry loop (0 attempts when the cache was served). -/
structure ReadResult where
  rows : List (List String)
  state : GSState
  attempts : ℕ
  waits : List ℕ

/-- The network portion of `_read_sheet` (src/google_sheets.py
lines 172-222): run the retry loop; on success fetch the sheet's current
rows and cache them under `key` with timestamp `now`; after a final
failure the outer handler prints the error and returns `[]` without
touching the cache. -/
def read_sheet_network (st : GSState) (key sheet : String) (now : ℚ)
    (trace : List NetResult) : ReadResult :=
  match (runRetry 3 trace).res with
  | .ok _ =>
    ⟨(st.sheets.lookup sheet).getD [],
     { st with
       cache := setKey key ((st.sheets.lookup sheet).getD []) st.cache,
       cacheTs := setKey key now st.cacheTs },
     (runRetry 3 trace).attempts, (runRetry 3 trace).waits⟩
  | .error _ => ⟨[], st, (runRetry 3 trace).attempts, (runRetry 3 trace).waits⟩

/-- `_read_sheet` for a full-sheet read with `use_cache=True`
(src/google_sheets.py lines 157-222): serve a cache entry that is still
valid; pop an expired entry and refetch; fetch and fill the cache on a
miss. -/
def read_sheet (st : GSState) (sheet : String) (now : ℚ)
    (trace : List NetResult) : ReadResult :=
  match st.cache.lookup (cacheKey sheet none) with
  | some v =>
    if is_cache_valid st (cacheKey sheet none) now then ⟨v, st, 0, []⟩
    else
      read_sheet_network
        { st with cache := eraseKey (cacheKey sheet none) st.cache,
                  cacheTs := eraseKey (cacheKey sheet none) st.cacheTs }
        (cacheKey sheet none) sheet now trace
  | none => read_sheet_network st (cacheKey sheet none) sheet now trace

/-- Result of a mutating sheet call: the new state on success or the
propagated exception, plus the attempt/wait accounting. -/
structure MutResult where
  res : Except Unit GSState
  attempts : ℕ
  waits : List ℕ

/-- `_append_sheet` (src/google_sheets.py lines 242-290): retry loop; on
success the rows are appended to the sheet and the sheet's cache entries
are cleared before returning; after the last failed attempt the error
propagates. -/
def append_sheet (st : GSState) (sheet : String) (values : List (List String))
    (trace : List NetResult) : MutResult :=
  match (runRetry 3 trace).res with
  | .ok _ =>
    ⟨.ok (clear_cache
        { st with
          sheets := setKey sheet ((st.sheets.lookup sheet).getD [] ++ values) st.sheets }
        sheet),
     (runRetry 3 trace).attempts, (runRetry 3 trace).waits⟩
  | .error _ => ⟨.error (), (runRetry 3 trace).attempts, (runRetry 3 trace).waits⟩

/-- `_update_row` (src/google_sheets.py lines 335-381): retry loop; on
success row `row_index` (1-based) is overwritten and the sheet's cache is
cleared before returning; after the last failed attempt the error
propagates. -/
def update_row (st : GSState) (sheet : String) (row_index : ℕ)
    (values : List String) (trace : List NetResult) : MutResult :=
  match (runRetry 3 trace).res with
  | .ok _ =>
    ⟨.ok (clear_cache
        { st with
          sheets := setKey sheet
            (((st.sheets.lookup sheet).getD []).set (row_index - 1) values) st.sheets }
        sheet),
     (runRetry 3 trace).attempts, (runRetry 3 trace).waits⟩
  | .error _ => ⟨.error (), (runRetry 3 trace).attempts, (runRetry 3 trace).waits⟩

/-- `_delete_row` (src/google_sheets.py lines 292-333): a single pair of
API calls with no retry loop; on success the 1-based row is removed and the
sheet's cache cleared before returning, otherwise the error propagates. -/
def delete_row (st : GSState) (sheet : String) (row_index : ℕ)
    (outcome : NetResult) : MutResult :=
  match outcome with
  | .ok =>
    ⟨.ok (clear_cache
        { st with
          sheets := setKey sheet
            (((st.sheets.lookup sheet).getD []).eraseIdx (row_index - 1)) st.sheets }
        sheet), 1, []⟩
  | _ => ⟨.error (), 1, []⟩

/-- `_write_sheet` (src/google_sheets.py lines 224-240): a single attempt
with no retry loop; it overwrites the range starting at A1 (modelled as
replacing the sheet) and does not clear the cache. -/
def write_sheet (st : GSState) (sheet : String) (values : List (List String))
    (outcome : NetResult) : MutResult :=
  match outcome with
  | .ok => ⟨.ok { st with sheets := setKey sheet values st.sheets }, 1, []⟩
  | _ => ⟨.error (), 1, []⟩

/-- The retry loop makes at most `remaining` attempts. -/
theorem runRetryGo_attempts_le (r a : ℕ) (t : List NetResult) :
    (runRetryGo a r t).attempts ≤ r := by
  induction r generalizing a with
  | zero => simp [runRetryGo]
  | succ r ih =>
    cases ho : t[a]?.getD NetResult.otherError
    case ok => simp [runRetryGo, List.getD_eq_getElem?_getD, ho]
    case rateLimit =>
      by_cases hr : r = 0
      · simp [runRetryGo, List.getD_eq_getElem?_getD, ho, hr]
      · have h2 := ih (a + 1)
        simp only [runRetryGo, List.getD_eq_getElem?_getD, ho, if_neg hr]
        omega
    case connError =>
      by_cases hr : r = 0
      · simp [runRetryGo, List.getD_eq_getElem?_getD, ho, hr]
      · have h2 := ih (a + 1)
        simp only [runRetryGo, List.getD_eq_getElem?_getD, ho, if_neg hr]
        omega
    case otherError => simp [runRetryGo, List.getD_eq_getElem?_getD, ho]

/-- The retry loop sleeps at most `remaining - 1` times. -/
theorem runRetryGo_waits_len (r a : ℕ) (t : List NetResult) :
    (runRetryGo a r t).waits.length ≤ r - 1 := by
  induction r generalizing a with
  | zero => simp [runRetryGo]
  | succ r ih =>
    cases ho : t[a]?.getD NetResult.otherError
    case ok => simp [runRetryGo, List.getD_eq_getElem?_getD, ho]
    case rateLimit =>
      by_cases hr : r = 0
      · simp [runRetryGo, List.getD_eq_getElem?_getD, ho, hr]
      · have h2 := ih (a + 1)
        simp only [runRetryGo, List.getD_eq_getElem?_getD, ho, if_neg hr, List.length_cons]
        omega
    case connError =>
      by_cases hr : r = 0
      · simp [runRetryGo, List.getD_eq_getElem?_getD, ho, hr]
      · have h2 := ih (a + 1)
        simp only [runRetryGo, List.getD_eq_getElem?_getD, ho, if_neg hr, List.length_cons]
        omega
    case otherError => simp [runRetryGo, List.getD_eq_getElem?_getD, ho]

/-- The wait before retrying attempt `i + 1` is `(i + 1) * 2` seconds after
a rate limit on attempt `i` and `(i + 1) * 3` seconds after a connection
error on attempt `i`. -/
theorem runRetryGo_waits_spec (r a : ℕ) (t : List NetResult) (i : ℕ)
    (h : i < (runRetryGo a r t).waits.length) :
    (t.getD (a + i) .otherError = .rateLimit ∧
      (runRetryGo a r t).waits.get? i = some ((a + i + 1) * 2)) ∨
    (t.getD (a + i) .otherError = .connError ∧
      (runRetryGo a r t).waits.get? i = some ((a + i + 1) * 3)) := by
  induction r generalizing a i with
  | zero => simp [runRetryGo] at h
  | succ r ih =>
    cases ho : t[a]?.getD NetResult.otherError
    case ok => rw [show runRetryGo a (r + 1) t = ⟨.ok (), 1, []⟩ by
                 simp [runRetryGo, List.getD_eq_getElem?_getD, ho]] at h
               simp at h
    case rateLimit =>
      by_cases hr : r = 0
      · rw [show runRetryGo a (r + 1) t = ⟨.error (), 1, []⟩ by
          simp [runRetryGo, List.getD_eq_getElem?_getD, ho, hr]] at h
        simp at h
      · simp only [runRetryGo, List.getD_eq_getElem?_getD, ho, if_neg hr] at h ⊢
        cases i with
        | zero =>
          left
          refine ⟨by simpa using ho, ?_⟩
          simp
        | succ j =>
          simp only [List.length_cons, Nat.succ_lt_succ_iff] at h
          have harith : a + (j + 1) = a + 1 + j := by omega
          rw [harith]
          have := ih (a + 1) j h
          simpa using this
    case connError =>
      by_cases hr : r = 0
      · rw [show runRetryGo a (r + 1) t = ⟨.error (), 1, []⟩ by
          simp [runRetryGo, List.getD_eq_getElem?_getD, ho, hr]] at h
        simp at h
      · simp only [runRetryGo, List.getD_eq_getElem?_getD, ho, if_neg hr] at h ⊢
        cases i with
        | zero =>
          right
          refine ⟨by simpa using ho, ?_⟩
          simp
        | succ j =>
          simp only [List.length_cons, Nat.succ_lt_succ_iff] at h
          have harith : a + (j + 1) = a + 1 + j := by omega
          rw [harith]
          have := ih (a + 1) j h
          simpa using this
    case otherError =>
      rw [show runRetryGo a (r + 1) t = ⟨.error (), 1, []⟩ by
        simp [runRetryGo, List.getD_eq_getElem?_getD, ho]] at h
      simp at h

/-- Wait pattern of the claim: the `i`-th sleep is `(i + 1) * 2` seconds for
a rate limit on attempt `i` and `(i + 1) * 3` seconds for a connection
error on attempt `i`. -/
def waitSpec (t : List NetResult) (i : ℕ) (w : Option ℕ) : Prop :=
  (t.getD i .otherError = .rateLimit ∧ w = some ((i + 1) * 2)) ∨
  (t.getD i .otherError = .connError ∧ w = some ((i + 1) * 3))

/-- The append operation reports the accounting of its retry loop. -/
theorem append_sheet_accounting (st : GSState) (sheet : String)
    (values : List (List String)) (trace : List NetResult) :
    (append_sheet st sheet values trace).attempts = (runRetry 3 trace).attempts ∧
    (append_sheet st sheet values trace).waits = (runRetry 3 trace).waits := by
  unfold append_sheet
  cases h : (runRetry 3 trace).res <;> simp [h]

/-- The row-update operation reports the accounting of its retry loop. -/
theorem update_row_accounting (st : GSState) (sheet : String) (idx : ℕ)
    (row : List String) (trace : List NetResult) :
    (update_row st sheet idx row trace).attempts = (runRetry 3 trace).attempts ∧
    (update_row st sheet idx row trace).waits = (runRetry 3 trace).waits := by
  unfold update_row
  cases h : (runRetry 3 trace).res <;> simp [h]

/-- The network portion of a read reports the accounting of its retry loop. -/
theorem read_sheet_network_accounting (st : GSState) (key sheet : String)
    (now : ℚ) (trace : List NetResult) :
    (read_sheet_network st key sheet now trace).attempts = (runRetry 3 trace).attempts ∧
    (read_sheet_network st key sheet now trace).waits = (runRetry 3 trace).waits := by
  unfold read_sheet_network
  cases h : (runRetry 3 trace).res <;> simp [h]

/-- C8 counterexample: not one but three spreadsheet network operations
retry a failed call — after a rate limit on the first attempt, the
full-sheet read, the append and the row update all make a second attempt,
each after a 2-second wait. -/
theorem C8_counterexample :
    (read_sheet ⟨[("Orders", [["h"]])], [], []⟩ "Orders" 0
      [.rateLimit, .ok]).attempts = 2 ∧
    (read_sheet ⟨[("Orders", [["h"]])], [], []⟩ "Orders" 0
      [.rateLimit, .ok]).waits = [2] ∧
    (append_sheet ⟨[("Orders", [["h"]])], [], []⟩ "Orders" [["r"]]
      [.rateLimit, .ok]).attempts = 2 ∧
    (append_sheet ⟨[("Orders", [["h"]])], [], []⟩ "Orders" [["r"]]
      [.rateLimit, .ok]).waits = [2] ∧
    (update_row ⟨[("Orders", [["h"]])], [], []⟩ "Orders" 2 ["r"]
      [.rateLimit, .ok]).attempts = 2 ∧
    (update_row ⟨[("Orders", [["h"]])], [], []⟩ "Orders" 2 ["r"]
      [.rateLimit, .ok]).waits = [2] :=
  ⟨rfl, rfl, rfl, rfl, rfl, rfl⟩

/-- C8 amended: three network operations (full-sheet read, append, row
update) carry the retry loop; each makes at most 3 attempts with at most 2
waits following the 2 s/4 s (rate limit) and 3 s/6 s (connection error)
schedule; `_write_sheet` and `_delete_row` make exactly one attempt; after
a final failure append and row update propagate the error while the read
returns an empty list and leaves its state unchanged. -/
theorem C8_retry_schedule (st : GSState) (sheet : String)
    (values : List (List String)) (row : List String) (idx : ℕ)
    (trace : List NetResult) (outcome : NetResult) (now : ℚ) :
    (append_sheet st sheet values trace).attempts ≤ 3 ∧
    (append_sheet st sheet values trace).waits.length ≤ 2 ∧
    (∀ i, i < (append_sheet st sheet values trace).waits.length →
      waitSpec trace i ((append_sheet st sheet values trace).waits.get? i)) ∧
    (update_row st sheet idx row trace).attempts ≤ 3 ∧
    (update_row st sheet idx row trace).waits.length ≤ 2 ∧
    (∀ i, i < (update_row st sheet idx row trace).waits.length →
      waitSpec trace i ((update_row st sheet idx row trace).waits.get? i)) ∧
    (read_sheet st sheet now trace).attempts ≤ 3 ∧
    (read_sheet st sheet now trace).waits.length ≤ 2 ∧
    (∀ i, i < (read_sheet st sheet now trace).waits.length →
      waitSpec trace i ((read_sheet st sheet now trace).waits.get? i)) ∧
    (write_sheet st sheet values outcome).attempts = 1 ∧
    (write_sheet st sheet values outcome).waits = [] ∧
    (delete_row st sheet idx outcome).attempts = 1 ∧
    (delete_row st sheet idx outcome).waits = [] ∧
    ((runRetry 3 trace).res = .error () →
      (append_sheet st sheet values trace).res = .error () ∧
      (update_row st sheet idx row trace).res = .error () ∧
      (read_sheet_network st (cacheKey sheet none) sheet now trace).rows = [] ∧
      (read_sheet_network st (cacheKey sheet none) sheet now trace).state = st) := by
  have hatt : (runRetry 3 trace).attempts ≤ 3 := runRetryGo_attempts_le 3 0 trace
  have hlen : (runRetry 3 trace).waits.length ≤ 2 := by
    unfold runRetry
    have := runRetryGo_waits_len 3 0 trace
    omega
  have hspec : ∀ i, i < (runRetry 3 trace).waits.length →
      waitSpec trace i ((runRetry 3 trace).waits.get? i) := by
    intro i hi
    have := runRetryGo_waits_spec 3 0 trace i hi
    simpa [waitSpec, runRetry] using this
  obtain ⟨ha1, ha2⟩ := append_sheet_accounting st sheet values trace
  obtain ⟨hu1, hu2⟩ := update_row_accounting st sheet idx row trace
  have hread : (read_sheet st sheet now trace).attempts ≤ 3 ∧
      (read_sheet st sheet now trace).waits.length ≤ 2 ∧
      (∀ i, i < (read_sheet st sheet now trace).waits.length →
        waitSpec trace i ((read_sheet st sheet now trace).waits.get? i)) := by
    obtain ⟨hn1, hn2⟩ := read_sheet_network_accounting
      { st with cache := eraseKey (cacheKey sheet none) st.cache,
                cacheTs := eraseKey (cacheKey sheet none) st.cacheTs }
      (cacheKey sheet none) sheet now trace
    obtain ⟨hm1, hm2⟩ := read_sheet_network_accounting st (cacheKey sheet none)
      sheet now trace
    unfold read_sheet
    cases hc : st.cache.lookup (cacheKey sheet none)
    · simp only
      exact ⟨by rw [hm1]; exact hatt, by rw [hm2]; exact hlen,
        by rw [hm2]; exact hspec⟩
    · simp only
      by_cases hv : is_cache_valid st (cacheKey sheet none) now
      · simp [hv]
      · simp only [hv, if_neg, Bool.false_eq_true, if_false]
        exact ⟨by rw [hn1]; exact hatt, by rw [hn2]; exact hlen,
          by rw [hn2]; exact hspec⟩
  refine ⟨by rw [ha1]; exact hatt, by rw [ha2]; exact hlen, by rw [ha2]; exact hspec,
    by rw [hu1]; exact hatt, by rw [hu2]; exact hlen, by rw [hu2]; exact hspec,
    hread.1, hread.2.1, hread.2.2, ?_, ?_, ?_, ?_, ?_⟩
  · cases outcome <;> rfl
  · cases outcome <;> rfl
  · cases outcome <;> rfl
  · cases outcome <;> rfl
  · intro herr
    unfold append_sheet update_row read_sheet_network
    rw [herr]
    exact ⟨rfl, rfl, rfl, rfl⟩

/-- Concrete instantiation of `C8_retry_schedule`: after three rate limits
in a row, the append operation propagates the error. -/
theorem C8_retry_schedule_witness :
    (append_sheet ⟨[("Orders", [["h"]])], [], []⟩ "Orders" [["r"]]
      [.rateLimit, .rateLimit, .rateLimit]).res = .error () :=
  ((C8_retry_schedule ⟨[("Orders", [["h"]])], [], []⟩ "Orders" [["r"]] ["r"] 2
      [.rateLimit, .rateLimit, .rateLimit] .ok 0).2.2.2.2.2.2.2.2.2.2.2.2.2
    rfl).1

/-- A lookup misses every key that the filter removed. -/
theorem lookup_filter_none {α : Type} (l : List (String × α)) (k : String)
    (p : String × α → Bool) (h : ∀ v, p (k, v) = false) :
    (l.filter p).lookup k = none := by
  induction l with
  | nil => rfl
  | cons kv l ih =>
    by_cases hp : p kv
    · rw [List.filter_cons_of_pos hp]
      have hk : (k == kv.1) = false := by
        rw [beq_eq_false_iff_ne]
        intro he
        have h2 := h kv.2
        rw [he, Prod.mk.eta] at h2
        rw [h2] at hp
        cases hp
      show List.lookup k (kv :: List.filter p l) = none
      rw [show kv = (kv.1, kv.2) from rfl, List.lookup_cons]
      rw [hk]
      exact ih
    · rw [List.filter_cons_of_neg hp]
      exact ih

/-- Setting a key makes it the association found by lookup. -/
theorem lookup_setKey_self {α : Type} (k : String) (v : α)
    (l : List (String × α)) : (setKey k v l).lookup k = some v := by
  simp [setKey, List.lookup]

/-- The full-read cache key of a sheet starts with `sheet ++ "_"`. -/
theorem cacheKey_startsWith (sheet : String) :
    strStartsWith (cacheKey sheet none) (sheet ++ "_") = true := by
  unfold strStartsWith cacheKey
  rw [show sheet ++ "_" ++ (Option.getD none "full") = (sheet ++ "_") ++ "full" from rfl]
  rw [String.data_append]
  rw [List.isPrefixOf_iff_prefix]
  exact List.prefix_append _ _

/-- C7: the spreadsheet read cache is a flat TTL cache with default TTL 300
seconds.  A full-sheet read serves a cached entry exactly when its age is
strictly below the TTL (leaving the state untouched, with no network
attempt); an entry at least TTL old is popped and the data refetched, so on
network success the read returns the remote rows and restamps the entry at
`now`; a missing entry goes straight to the network. -/
theorem C7_cache_ttl (st : GSState) (sheet : String) (now : ℚ)
    (trace : List NetResult) (v : List (List String)) (ts : ℚ) :
    CACHE_TTL = 300 ∧
    (st.cache.lookup (cacheKey sheet none) = some v →
     st.cacheTs.lookup (cacheKey sheet none) = some ts →
     now - ts < CACHE_TTL →
     read_sheet st sheet now trace = ⟨v, st, 0, []⟩) ∧
    (st.cache.lookup (cacheKey sheet none) = some v →
     st.cacheTs.lookup (cacheKey sheet none) = some ts →
     CACHE_TTL ≤ now - ts →
     read_sheet st sheet now trace =
       read_sheet_network
         { st with cache := eraseKey (cacheKey sheet none) st.cache,
                   cacheTs := eraseKey (cacheKey sheet none) st.cacheTs }
         (cacheKey sheet none) sheet now trace ∧
     ((runRetry 3 trace).res = .ok () →
       (read_sheet st sheet now trace).rows = (st.sheets.lookup sheet).getD [] ∧
       (read_sheet st sheet now trace).state.cacheTs.lookup (cacheKey sheet none)
         = some now)) ∧
    (st.cache.lookup (cacheKey sheet none) = none →
     read_sheet st sheet now trace =
       read_sheet_network st (cacheKey sheet none) sheet now trace) := by
  refine ⟨rfl, ?_, ?_, ?_⟩
  · intro h1 h2 h3
    unfold read_sheet
    rw [h1]
    have hvalid : is_cache_valid st (cacheKey sheet none) now = true := by
      unfold is_cache_valid
      rw [h2]
      simpa using h3
    simp [hvalid]
  · intro h1 h2 h3
    have hvalid : is_cache_valid st (cacheKey sheet none) now = false := by
      unfold is_cache_valid
      rw [h2]
      simpa using not_lt.2 h3
    have heq : read_sheet st sheet now trace =
        read_sheet_network
          { st with cache := eraseKey (cacheKey sheet none) st.cache,
                    cacheTs := eraseKey (cacheKey sheet none) st.cacheTs }
          (cacheKey sheet none) sheet now trace := by
      unfold read_sheet
      rw [h1]
      simp [hvalid]
    refine ⟨heq, ?_⟩
    intro hok
    rw [heq]
    unfold read_sheet_network
    rw [hok]
    exact ⟨rfl, lookup_setKey_self _ _ _⟩
  · intro h1
    unfold read_sheet
    rw [h1]

/-- Concrete instantiation of `C7_cache_ttl`: a 100-second-old entry is
served as-is, with no state change and no network attempt. -/
theorem C7_cache_ttl_witness :
    read_sheet ⟨[("Orders", [["h"], ["r"]])], [("Orders_full", [["h"], ["c"]])],
        [("Orders_full", 0)]⟩ "Orders" 100 []
      = ⟨[["h"], ["c"]],
         ⟨[("Orders", [["h"], ["r"]])], [("Orders_full", [["h"], ["c"]])],
          [("Orders_full", 0)]⟩, 0, []⟩ :=
  (C7_cache_ttl ⟨[("Orders", [["h"], ["r"]])], [("Orders_full", [["h"], ["c"]])],
      [("Orders_full", 0)]⟩ "Orders" 100 [] [["h"], ["c"]] 0).2.1
    rfl rfl (by norm_num [CACHE_TTL])

/-- C9: every successful sheet mutation (append, row update, row delete)
clears all cache entries for that sheet before returning: afterwards no
cache key of the sheet survives, the full-read key misses, and a subsequent
full-sheet read (with a clean network attempt) returns the sheet's current
remote rows rather than any cached snapshot; for the append the remote rows
are the old rows with the new ones appended. -/
theorem C9_write_invalidates_cache (st : GSState) (sheet : String)
    (values : List (List String)) (row : List String) (idx : ℕ)
    (trace : List NetResult) :
    (∀ st', (append_sheet st sheet values trace).res = .ok st' →
      (∀ kv ∈ st'.cache, strStartsWith kv.1 (sheet ++ "_") = false) ∧
      st'.cache.lookup (cacheKey sheet none) = none ∧
      (∀ now, (read_sheet st' sheet now [.ok]).rows
        = (st'.sheets.lookup sheet).getD []) ∧
      st'.sheets.lookup sheet = some ((st.sheets.lookup sheet).getD [] ++ values)) ∧
    (∀ st', (update_row st sheet idx row trace).res = .ok st' →
      (∀ kv ∈ st'.cache, strStartsWith kv.1 (sheet ++ "_") = false) ∧
      st'.cache.lookup (cacheKey sheet none) = none ∧
      (∀ now, (read_sheet st' sheet now [.ok]).rows
        = (st'.sheets.lookup sheet).getD [])) ∧
    (∀ st' outcome, (delete_row st sheet idx outcome).res = .ok st' →
      (∀ kv ∈ st'.cache, strStartsWith kv.1 (sheet ++ "_") = false) ∧
      st'.cache.lookup (cacheKey sheet none) = none ∧
      (∀ now, (read_sheet st' sheet now [.ok]).rows
        = (st'.sheets.lookup sheet).getD [])) := by
  have hclear : ∀ st0 : GSState,
      (∀ kv ∈ (clear_cache st0 sheet).cache,
        strStartsWith kv.1 (sheet ++ "_") = false) := by
    intro st0 kv hkv
    unfold clear_cache at hkv
    simp only [List.mem_filter, Bool.not_eq_true'] at hkv
    simpa using hkv.2
  have hmiss : ∀ st0 : GSState,
      (clear_cache st0 sheet).cache.lookup (cacheKey sheet none) = none := by
    intro st0
    unfold clear_cache
    apply lookup_filter_none
    intro v
    simp [cacheKey_startsWith sheet]
  have hfresh : ∀ st1 : GSState,
      st1.cache.lookup (cacheKey sheet none) = none →
      ∀ now, (read_sheet st1 sheet now [.ok]).rows
        = (st1.sheets.lookup sheet).getD [] := by
    intro st1 hnone now
    unfold read_sheet
    rw [hnone]
    rfl
  refine ⟨?_, ?_, ?_⟩
  · intro st' hok
    unfold append_sheet at hok
    cases hres : (runRetry 3 trace).res with
    | error e => rw [hres] at hok; exact absurd hok (by simp)
    | ok u =>
      rw [hres] at hok
      simp only [Except.ok.injEq] at hok
      subst hok
      refine ⟨hclear _, hmiss _, hfresh _ (hmiss _), ?_⟩
      exact lookup_setKey_self _ _ _
  · intro st' hok
    unfold update_row at hok
    cases hres : (runRetry 3 trace).res with
    | error e => rw [hres] at hok; exact absurd hok (by simp)
    | ok u =>
      rw [hres] at hok
      simp only [Except.ok.injEq] at hok
      subst hok
      exact ⟨hclear _, hmiss _, hfresh _ (hmiss _)⟩
  · intro st' outcome hok
    cases outcome with
    | ok =>
      unfold delete_row at hok
      simp only [Except.ok.injEq] at hok
      subst hok
      exact ⟨hclear _, hmiss _, hfresh _ (hmiss _)⟩
    | rateLimit => exact absurd hok (by simp [delete_row])
    | connError => exact absurd hok (by simp [delete_row])
    | otherError => exact absurd hok (by simp [delete_row])

/-- Concrete instantiation of `C9_write_invalidates_cache`: after a
successful append to the Orders sheet, the cached full-sheet snapshot is
gone. -/
theorem C9_write_invalidates_cache_witness :
    (GSState.mk [("Orders", [["h"], ["r"]])] [] []).cache.lookup
      (cacheKey "Orders" none) = none :=
  ((C9_write_invalidates_cache
      ⟨[("Orders", [["h"]])], [("Orders_full", [["h"]])], [("Orders_full", 0)]⟩
      "Orders" [["r"]] ["r"] 2 [.ok]).1
    ⟨[("Orders", [["h"], ["r"]])], [], []⟩ rfl).2.1

/-! ## C2: order totals, decimal arithmetic versus binary floating point -/

/-- Floor of the base-2 logarithm of a positive rational: the candidate
exponent from the bit lengths of numerator and denominator, corrected by
one when it overshoots. -/
def floorLog2 (q : ℚ) : ℤ :=
  if (2 : ℚ) ^ ((Nat.log2 q.num.natAbs : ℤ) - (Nat.log2 q.den : ℤ)) ≤ q
  then (Nat.log2 q.num.natAbs : ℤ) - (Nat.log2 q.den : ℤ)
  else (Nat.log2 q.num.natAbs : ℤ) - (Nat.log2 q.den : ℤ) - 1

/-- Round a rational to the nearest integer, ties to even: the rounding of
IEEE-754 binary arithmetic and of Python's `round`. -/
def roundHalfEven (q : ℚ) : ℤ :=
  if q - ⌊q⌋ < 1/2 then ⌊q⌋
  else if 1/2 < q - ⌊q⌋ then ⌊q⌋ + 1
  else if ⌊q⌋ % 2 = 0 then ⌊q⌋ else ⌊q⌋ + 1

/-- Nearest binary64 neighbour of a positive rational: scale into
`[2^52, 2^53)`, round the 53-bit significand half to even, scale back. -/
def roundB64Pos (q : ℚ) : ℚ :=
  ((roundHalfEven (q * (2 : ℚ) ^ (52 - floorLog2 q)) : ℤ) : ℚ)
    * (2 : ℚ) ^ (floorLog2 q - 52)

/-- Python's `float(x)` as an exact rational: the value of the nearest
IEEE-754 binary64 number (round half to even).  Overflow and subnormals lie
far outside the monetary magnitudes concerned and are not modelled. -/
def roundB64 (q : ℚ) : ℚ :=
  if q = 0 then 0 else if q < 0 then -roundB64Pos (-q) else roundB64Pos q

/-- A rational that binary64 represents exactly, so `float` conversion and
the binary64 operations hitting it are value-preserving. -/
def FloatExact (q : ℚ) : Prop := roundB64 q = q

/-- Python's `round(x, 2)` on a float: correctly-rounded two-decimal
rounding (half to even) of the exact binary value, converted back to
binary64 (src/app.py line 639). -/
def pyRound2 (q : ℚ) : ℚ := roundB64 (((roundHalfEven (q * 100) : ℤ) : ℚ) / 100)

/-- `total_sales = sum(float(order.price * order.quantity) for order in orders)`
(src/app.py line 574): each exact Decimal product is converted to binary64
and the running sum is accumulated with binary64 additions. -/
def total_sales_float (orders : List Order) : ℚ :=
  (orders.map (fun o => roundB64 (orderTotal o))).foldl (fun a t => roundB64 (a + t)) 0

/-- The JSON value `round(total_sales, 2)` returned by `api_overall_report`
(src/app.py line 639). -/
def api_total_sales (orders : List Order) : ℚ := pyRound2 (total_sales_float orders)

/-- What the spec's words prescribe: total sales computed exactly in
decimal arithmetic (stated for comparison with the float pipeline of the
source). -/
def total_sales_decimal (orders : List Order) : ℚ := (orders.map orderTotal).sum

/-- The `to_dict` field `'total': float(self.price * self.quantity)`
(src/models.py line 77). -/
def to_dict_total (o : Order) : ℚ := roundB64 (orderTotal o)

/-- Binary64 additions agree with the exact sums as long as every partial
sum is exactly representable. -/
def sumChainExact : ℚ → List ℚ → Prop
  | _, [] => True
  | a, t :: ts => FloatExact (a + t) ∧ sumChainExact (a + t) ts

/-- Evaluation rule for `floorLog2` from explicit power-of-two bounds on
numerator and denominator. -/
theorem floorLog2_of_bounds (q : ℚ) (k1 k2 : ℕ)
    (ha : 2 ^ k1 ≤ q.num.natAbs) (hb : q.num.natAbs < 2 ^ (k1 + 1))
    (hc : 2 ^ k2 ≤ q.den) (hd : q.den < 2 ^ (k2 + 1)) :
    floorLog2 q = if (2 : ℚ) ^ ((k1 : ℤ) - (k2 : ℤ)) ≤ q then (k1 : ℤ) - (k2 : ℤ)
                  else (k1 : ℤ) - (k2 : ℤ) - 1 := by
  unfold floorLog2
  rw [show Nat.log2 q.num.natAbs = k1 from by
    rw [Nat.log2_eq_log_two]
    exact Nat.log_eq_of_pow_le_of_lt_pow ha hb]
  rw [show Nat.log2 q.den = k2 from by
    rw [Nat.log2_eq_log_two]
    exact Nat.log_eq_of_pow_le_of_lt_pow hc hd]

/-- Folding binary64 additions over exactly representable partial sums
produces the exact sum. -/
theorem foldl_roundB64_exact (l : List ℚ) (a : ℚ) (hc : sumChainExact a l) :
    l.foldl (fun x t => roundB64 (x + t)) a = a + l.sum := by
  induction l generalizing a with
  | nil => simp
  | cons t ts ih =>
    obtain ⟨h1, h2⟩ := hc
    simp only [List.foldl_cons, List.sum_cons]
    rw [show roundB64 (a + t) = a + t from h1, ih _ h2]
    ring

/-- Binary64 value of the decimal 2.675: `float(Decimal('2.675'))` is
2.674999999999999822…, one ulp below the decimal. -/
theorem roundB64_2675 :
    roundB64 (107/40) = 3011782250804019/1125899906842624 := by
  rw [roundB64, if_neg (by norm_num), if_neg (by norm_num), roundB64Pos]
  have he : floorLog2 (107/40) = 1 := by
    rw [floorLog2_of_bounds _ 6 5 (by norm_num) (by norm_num) (by norm_num)
      (by norm_num)]
    norm_num
  rw [he]
  have hm : roundHalfEven ((107/40 : ℚ) * (2 : ℚ) ^ (52 - 1 : ℤ))
      = 6023564501608038 := by
    norm_num [roundHalfEven]
  rw [hm]
  norm_num

/-- The binary64 neighbour of 2.675 is itself exactly representable. -/
theorem roundB64_2675_fix :
    roundB64 (3011782250804019/1125899906842624)
      = 3011782250804019/1125899906842624 := by
  rw [roundB64, if_neg (by norm_num), if_neg (by norm_num), roundB64Pos]
  have he : floorLog2 (3011782250804019/1125899906842624) = 1 := by
    rw [floorLog2_of_bounds _ 51 50 (by norm_num) (by norm_num) (by norm_num)
      (by norm_num)]
    norm_num
  rw [he]
  have hm : roundHalfEven ((3011782250804019/1125899906842624 : ℚ)
      * (2 : ℚ) ^ (52 - 1 : ℤ)) = 6023564501608038 := by
    norm_num [roundHalfEven]
  rw [hm]
  norm_num

/-- Binary64 value of the decimal 2.67. -/
theorem roundB64_267 :
    roundB64 (267/100) = 1503076375634903/562949953421312 := by
  rw [roundB64, if_neg (by norm_num), if_neg (by norm_num), roundB64Pos]
  have he : floorLog2 (267/100) = 1 := by
    rw [floorLog2_of_bounds _ 8 6 (by norm_num) (by norm_num) (by norm_num)
      (by norm_num)]
    norm_num
  rw [he]
  have hm2 : roundHalfEven ((267/100 : ℚ) * (2 : ℚ) ^ (52 - 1 : ℤ))
      = 6012305502539612 := by
    norm_num [roundHalfEven]
  rw [hm2]
  norm_num

/-- Two-decimal Python rounding of the binary64 neighbour of 2.675 gives
2.67 (as a binary64 value), not 2.68: the exact binary value lies just
below the midpoint. -/
theorem pyRound2_2675 :
    pyRound2 (3011782250804019/1125899906842624)
      = 1503076375634903/562949953421312 := by
  rw [pyRound2]
  have hm : roundHalfEven ((3011782250804019/1125899906842624 : ℚ) * 100)
      = 267 := by
    norm_num [roundHalfEven]
  rw [hm]
  rw [show (((267 : ℤ) : ℚ)) / 100 = 267/100 by norm_num]
  exact roundB64_267

/-- The exact decimal total of the counterexample store. -/
theorem C2_tsd_eval :
    total_sales_decimal [⟨1, 1, 1, 1, 107/40, ⟨2024, 5, 1⟩, "paid", 107/40⟩]
      = 107/40 := by
  unfold total_sales_decimal
  simp only [List.map_cons, List.map_nil, List.sum_cons, List.sum_nil]
  norm_num [orderTotal]

/-- Unfolding of the float aggregate on a one-order store, stated for a
symbolic order so that later rewriting never asks the kernel to evaluate
the rounding function. -/
theorem total_sales_float_singleton (o : Order) :
    total_sales_float [o] = roundB64 (0 + roundB64 (orderTotal o)) := by
  unfold total_sales_float
  rw [List.map_cons, List.map_nil, List.foldl_cons, List.foldl_nil]

/-- The float aggregate of the counterexample store. -/
theorem C2_tsf_eval :
    total_sales_float [⟨1, 1, 1, 1, 107/40, ⟨2024, 5, 1⟩, "paid", 107/40⟩]
      = 3011782250804019/1125899906842624 := by
  rw [total_sales_float_singleton]
  rw [show orderTotal ⟨1, 1, 1, 1, 107/40, ⟨2024, 5, 1⟩, "paid", 107/40⟩
      = 107/40 by norm_num [orderTotal]]
  rw [roundB64_2675, zero_add]
  exact roundB64_2675_fix

/-- The reported two-decimal value of the counterexample store. -/
theorem C2_api_eval :
    api_total_sales [⟨1, 1, 1, 1, 107/40, ⟨2024, 5, 1⟩, "paid", 107/40⟩]
      = 1503076375634903/562949953421312 := by
  unfold api_total_sales
  rw [C2_tsf_eval]
  exact pyRound2_2675

/-- C2 counterexample: a single order with price 2.675 and quantity 1.  The
exact decimal total is 2.675, but the `total_sales` pipeline converts to
binary64, yielding 2.674999999999999822…, and the two-decimal rounding the
endpoint applies returns (the binary64 value of) 2.67 — not 2.675 and not
the 2.68 that two-decimal decimal arithmetic would give.  So the displayed
aggregates are not computed with exact decimal arithmetic. -/
theorem C2_counterexample :
    total_sales_decimal [⟨1, 1, 1, 1, 107/40, ⟨2024, 5, 1⟩, "paid", 107/40⟩]
      = 107/40 ∧
    total_sales_float [⟨1, 1, 1, 1, 107/40, ⟨2024, 5, 1⟩, "paid", 107/40⟩]
      = 3011782250804019/1125899906842624 ∧
    total_sales_float [⟨1, 1, 1, 1, 107/40, ⟨2024, 5, 1⟩, "paid", 107/40⟩]
      ≠ total_sales_decimal [⟨1, 1, 1, 1, 107/40, ⟨2024, 5, 1⟩, "paid", 107/40⟩] ∧
    api_total_sales [⟨1, 1, 1, 1, 107/40, ⟨2024, 5, 1⟩, "paid", 107/40⟩]
      = 1503076375634903/562949953421312 ∧
    api_total_sales [⟨1, 1, 1, 1, 107/40, ⟨2024, 5, 1⟩, "paid", 107/40⟩]
      ≠ 107/40 ∧
    api_total_sales [⟨1, 1, 1, 1, 107/40, ⟨2024, 5, 1⟩, "paid", 107/40⟩]
      ≠ 67/25 :=
  ⟨C2_tsd_eval, C2_tsf_eval,
   by rw [C2_tsf_eval, C2_tsd_eval]; norm_num,
   C2_api_eval,
   by rw [C2_api_eval]; norm_num,
   by rw [C2_api_eval]; norm_num⟩

/-- C2 amended: the order total is `price * quantity`; it is stored exactly
as a Decimal, but every displayed or aggregated total passes through
binary64 floats (`float(...)`, float sums and `round`).  The float
aggregate agrees with the exact decimal aggregate precisely on inputs whose
totals and partial sums are exactly representable in binary64; in general
it differs (`C2_counterexample`). -/
theorem C2_totals_float (orders : List Order) (o : Order)
    (hex : ∀ x ∈ orders, FloatExact (orderTotal x))
    (hchain : sumChainExact 0 (orders.map orderTotal)) :
    to_dict_total o = roundB64 (o.price * o.quantity) ∧
    total_sales_decimal orders = (orders.map (fun x => x.price * (x.quantity : ℚ))).sum ∧
    total_sales_float orders = total_sales_decimal orders := by
  refine ⟨rfl, rfl, ?_⟩
  unfold total_sales_float total_sales_decimal
  have hmap : orders.map (fun x => roundB64 (orderTotal x)) = orders.map orderTotal := by
    apply List.map_congr_left
    intro x hx
    exact hex x hx
  rw [hmap, foldl_roundB64_exact _ _ hchain, zero_add]

/-- Concrete instantiation of `C2_totals_float`: for a single order with
total 50, the float pipeline returns the exact decimal total. -/
theorem C2_totals_float_witness :
    total_sales_float [⟨1, 1, 1, 2, 25, ⟨2024, 5, 1⟩, "paid", 50⟩]
      = total_sales_decimal [⟨1, 1, 1, 2, 25, ⟨2024, 5, 1⟩, "paid", 50⟩] := by
  have htot : orderTotal ⟨1, 1, 1, 2, 25, ⟨2024, 5, 1⟩, "paid", 50⟩ = 50 := by
    norm_num [orderTotal]
  have h50 : FloatExact (50 : ℚ) := by
    unfold FloatExact
    rw [roundB64, if_neg (by norm_num), if_neg (by norm_num), roundB64Pos]
    have he : floorLog2 (50 : ℚ) = 5 := by
      rw [floorLog2_of_bounds _ 5 0 (by norm_num) (by norm_num) (by norm_num)
        (by norm_num)]
      norm_num
    rw [he]
    have hm : roundHalfEven ((50 : ℚ) * (2 : ℚ) ^ (52 - 5 : ℤ))
        = 7036874417766400 := by
      norm_num [roundHalfEven]
    rw [hm]
    norm_num
  refine (C2_totals_float [⟨1, 1, 1, 2, 25, ⟨2024, 5, 1⟩, "paid", 50⟩]
      ⟨1, 1, 1, 2, 25, ⟨2024, 5, 1⟩, "paid", 50⟩ ?_ ?_).2.2
  · intro x hx
    simp only [List.mem_cons, List.not_mem_nil, or_false] at hx
    subst hx
    unfold FloatExact
    rw [htot]
    exact h50
  · simp only [List.map_cons, List.map_nil]
    refine ⟨?_, trivial⟩
    unfold FloatExact
    rw [zero_add, htot]
    exact h50

/-! ## C1: the payment invariant under the order-mutating routes

The order routes parse monetary form fields with
`request.form.get(..., type=float)`, validate on the resulting binary64
values, and store `Decimal(str(x))` of those floats.  `float(...)` is
`roundB64`; `Decimal(str(x))` is `pyRepr`, the exact value of the shortest
decimal representation that round-trips to the same binary64 value. -/

/-- Floor of the base-10 logarithm of a positive rational, mirroring
`floorLog2`: the candidate exponent from the decimal magnitudes of
numerator and denominator, corrected by one when it overshoots. -/
def floorLog10 (q : ℚ) : ℤ :=
  if (10 : ℚ) ^ ((Nat.log 10 q.num.natAbs : ℤ) - (Nat.log 10 q.den : ℤ)) ≤ q
  then (Nat.log 10 q.num.natAbs : ℤ) - (Nat.log 10 q.den : ℤ)
  else (Nat.log 10 q.num.natAbs : ℤ) - (Nat.log 10 q.den : ℤ) - 1

/-- Evaluation rule for `floorLog10` from explicit power-of-ten bounds on
numerator and denominator. -/
theorem floorLog10_of_bounds (q : ℚ) (k1 k2 : ℕ)
    (ha : 10 ^ k1 ≤ q.num.natAbs) (hb : q.num.natAbs < 10 ^ (k1 + 1))
    (hc : 10 ^ k2 ≤ q.den) (hd : q.den < 10 ^ (k2 + 1)) :
    floorLog10 q = if (10 : ℚ) ^ ((k1 : ℤ) - (k2 : ℤ)) ≤ q then (k1 : ℤ) - (k2 : ℤ)
                   else (k1 : ℤ) - (k2 : ℤ) - 1 := by
  unfold floorLog10
  rw [show Nat.log 10 q.num.natAbs = k1 from Nat.log_eq_of_pow_le_of_lt_pow ha hb]
  rw [show Nat.log 10 q.den = k2 from Nat.log_eq_of_pow_le_of_lt_pow hc hd]

/-- Round a positive rational to `k` significant decimal digits, half to
even: scale so that `k` digits sit left of the decimal point, round to an
integer, scale back. -/
def roundSigDec (k : ℕ) (q : ℚ) : ℚ :=
  ((roundHalfEven (q * (10 : ℚ) ^ ((k : ℤ) - 1 - floorLog10 q)) : ℤ) : ℚ)
    * (10 : ℚ) ^ (floorLog10 q - ((k : ℤ) - 1))

/-- Digit-count search of the shortest round-trip decimal: try `k`
significant digits, then `k + 1`, …, accepting the first correctly rounded
decimal that converts back to the same binary64 value.  CPython's float
`repr` guarantees 17 digits always succeed, so on binary64 values the fuel
never runs out (the fuel-exhausted fallback returns the value itself). -/
def pyReprFrom (q : ℚ) (k fuel : ℕ) : ℚ :=
  match fuel with
  | 0 => q
  | f + 1 =>
    if roundB64 (roundSigDec k q) = q then roundSigDec k q
    else pyReprFrom q (k + 1) f

/-- One search step of `pyReprFrom`. -/
theorem pyReprFrom_step (q : ℚ) (k f : ℕ) :
    pyReprFrom q k (f + 1) =
      if roundB64 (roundSigDec k q) = q then roundSigDec k q
      else pyReprFrom q (k + 1) f := rfl

/-- Exact value of `repr`/`str` of a positive Python float: the decimal
with the fewest significant digits that rounds back to the same binary64
value, correctly rounded among those. -/
def pyReprPos (q : ℚ) : ℚ := pyReprFrom q 1 17

/-- The `Decimal(str(x))` idiom applied to floats throughout src/app.py
(lines 103, 106, 830, 833, 841, 844, 885, 890, 949, 955): the exact
rational value of the shortest round-trip decimal representation of the
binary64 value `x`. -/
def pyRepr (q : ℚ) : ℚ :=
  if q = 0 then 0 else if q < 0 then -pyReprPos (-q) else pyReprPos q

/-- Form fields of the add/edit order routes.  `Option` models
`request.form.get(..., type=...)`, which yields `None` for a missing or
unparsable field; for the delivery date the outer `Option` is presence of
the `delivery_date` string and the inner `Option` is success of
`datetime.strptime(s, '%Y-%m-%d')`.  `price` and `paid_amount` carry the
exact decimal value the user submitted; the handlers convert them to
binary64 (`roundB64`, the `type=float` parse) before any use. -/
structure OrderForm where
  variety_id : Option ℤ
  shop_id : Option ℤ
  quantity : Option ℤ
  price : Option ℚ
  delivery_date : Option (Option DDate)
  payment_status : String
  paid_amount : Option ℚ

/-- Status coercion of `add_order` (src/app.py lines 73-74):
`if payment_status not in ['paid', 'unpaid', 'partial']: payment_status = 'unpaid'`. -/
def coerceStatus (st : String) : String :=
  if st = "paid" ∨ st = "unpaid" ∨ st = "partial" then st else "unpaid"

/-- Route `add_order` (src/app.py lines 51-118): required-field falsiness
check (`not price` rejects the float value 0.0), positivity check on the
float price, coercion of an unknown payment status to `'unpaid'`, then the
partial-payment range check against `total_amount = float(price * quantity)`
— all in binary64 arithmetic (lines 77, 81) — followed by the date-format
check, existence checks, and insertion.  The stored row holds
`Decimal(str(price))` and `Decimal(str(paid_amount))` (lines 103, 106),
where a `'paid'` order's paid amount is the binary64 `total_amount` and an
`'unpaid'` order stores the integer 0.  `newId` is the autoincrement
primary key assigned by the database. -/
def add_order (s : Store) (f : OrderForm) (newId : ℤ) : Except String Store :=
  match f.variety_id, f.shop_id, f.quantity, f.price, f.delivery_date with
  | some vid, some sid, some q, some p, some dParse =>
    if vid = 0 ∨ sid = 0 ∨ q = 0 ∨ roundB64 p = 0 then .error "All fields are required"
    else if q ≤ 0 ∨ roundB64 p ≤ 0 then
      .error "Quantity and price must be positive numbers"
    else
      if coerceStatus f.payment_status = "partial" ∧
         (roundB64 (f.paid_amount.getD 0) ≤ 0 ∨
          roundB64 (roundB64 p * q) ≤ roundB64 (f.paid_amount.getD 0)) then
        .error "Partial payment amount must be greater than 0 and less than total amount"
      else
        match dParse with
        | none => .error "Invalid date format"
        | some d =>
          if (s.varieties.find? (fun v => decide (v.id = vid))).isNone then .error "404"
          else if (s.shops.find? (fun sh => decide (sh.id = sid))).isNone then .error "404"
          else .ok { s with orders := s.orders ++
            [{ id := newId, variety_id := vid, shop_id := sid, quantity := q,
               price := pyRepr (roundB64 p), delivery_date := d,
               payment_status := coerceStatus f.payment_status,
               paid_amount :=
                 if coerceStatus f.payment_status = "paid" then
                   pyRepr (roundB64 (roundB64 p * q))
                 else if coerceStatus f.payment_status = "partial" then
                   pyRepr (roundB64 (f.paid_amount.getD 0))
                 else 0 }] }
  | _, _, _, _, _ => .error "All fields are required"

/-- Route `edit_order`, POST branch (src/app.py lines 785-855), relational
backend: `get_or_404` on the order, required/positivity checks on the float
values, date parse, existence checks, then the order's fields are
overwritten with `Decimal(str(price))` and `Decimal(str(paid_amount))`
(lines 841, 844).  The payment status and paid amount are stored as
submitted, with no consistency validation. -/
def edit_order (s : Store) (orderId : ℤ) (f : OrderForm) : Except String Store :=
  if (s.orders.find? (fun o => decide (o.id = orderId))).isNone then .error "404"
  else
    match f.variety_id, f.shop_id, f.quantity, f.price, f.delivery_date with
    | some vid, some sid, some q, some p, some dParse =>
      if vid = 0 ∨ sid = 0 ∨ q = 0 ∨ roundB64 p = 0 then .error "All fields are required"
      else if q ≤ 0 ∨ roundB64 p ≤ 0 then
        .error "Quantity and price must be positive numbers"
      else
        match dParse with
        | none => .error "Invalid date format"
        | some d =>
          if (s.varieties.find? (fun v => decide (v.id = vid))).isNone then .error "404"
          else if (s.shops.find? (fun sh => decide (sh.id = sid))).isNone then .error "404"
          else .ok { s with orders := s.orders.map (fun o =>
            if o.id = orderId then
              { o with variety_id := vid, shop_id := sid, quantity := q,
                       price := pyRepr (roundB64 p),
                       delivery_date := d, payment_status := f.payment_status,
                       paid_amount := pyRepr (roundB64 (f.paid_amount.getD 0)) }
            else o) }
    | _, _, _, _, _ => .error "All fields are required"

/-- Route `mark_order_paid` (src/app.py lines 863-908), relational backend:
`get_or_404` on the order, then set its status to `'paid'` and its paid
amount to `Decimal(str(float(order.price * order.quantity)))`
(lines 870, 890): the full decimal total rounded through binary64 and back
through its shortest decimal representation. -/
def mark_order_paid (s : Store) (orderId : ℤ) : Except String Store :=
  if (s.orders.find? (fun o => decide (o.id = orderId))).isNone then .error "404"
  else .ok { s with orders := s.orders.map (fun o =>
    if o.id = orderId then
      { o with payment_status := "paid",
               paid_amount := pyRepr (roundB64 (orderTotal o)) }
    else o) }

/-- Route `mark_all_orders_paid` (src/app.py lines 911-965), relational
backend: `get_or_404` on the shop, then every order of the shop whose float
pending amount `float(price * quantity) - float(paid_amount)` is positive
(lines 923-927; the binary64 subtraction is itself rounded) gets status
`'paid'` and paid amount `Decimal(str(float(price * quantity)))`
(lines 953-955).  The early flash-and-redirect when no order is pending
leaves the same state and is absorbed into the map. -/
def mark_all_orders_paid (s : Store) (shopId : ℤ) : Except String Store :=
  if (s.shops.find? (fun sh => decide (sh.id = shopId))).isNone then .error "404"
  else .ok { s with orders := s.orders.map (fun o =>
    if o.shop_id = shopId ∧
       0 < roundB64 (roundB64 (orderTotal o) - roundB64 (orderPaid o)) then
      { o with payment_status := "paid",
               paid_amount := pyRepr (roundB64 (orderTotal o)) }
    else o) }

/-- Binary64 value of 2 (exactly representable). -/
theorem roundB64_2 : roundB64 (2 : ℚ) = 2 := by
  rw [roundB64, if_neg (by norm_num), if_neg (by norm_num), roundB64Pos]
  have he : floorLog2 (2 : ℚ) = 1 := by
    rw [floorLog2_of_bounds _ 1 0 (by norm_num) (by norm_num) (by norm_num)
      (by norm_num)]
    norm_num
  rw [he]
  have hm : roundHalfEven ((2 : ℚ) * (2 : ℚ) ^ (52 - 1 : ℤ)) = 4503599627370496 := by
    norm_num [roundHalfEven]
  rw [hm]
  norm_num

/-- Binary64 value of 5 (exactly representable). -/
theorem roundB64_5 : roundB64 (5 : ℚ) = 5 := by
  rw [roundB64, if_neg (by norm_num), if_neg (by norm_num), roundB64Pos]
  have he : floorLog2 (5 : ℚ) = 2 := by
    rw [floorLog2_of_bounds _ 2 0 (by norm_num) (by norm_num) (by norm_num)
      (by norm_num)]
    norm_num
  rw [he]
  have hm : roundHalfEven ((5 : ℚ) * (2 : ℚ) ^ (52 - 2 : ℤ)) = 5629499534213120 := by
    norm_num [roundHalfEven]
  rw [hm]
  norm_num

/-- Binary64 value of the decimal 0.1: `float('0.1')` is
0.1000000000000000055511151231257827…, just above one tenth. -/
theorem roundB64_01 :
    roundB64 (1/10) = 3602879701896397/36028797018963968 := by
  rw [roundB64, if_neg (by norm_num), if_neg (by norm_num), roundB64Pos]
  have he : floorLog2 (1/10 : ℚ) = -4 := by
    rw [floorLog2_of_bounds _ 0 3 (by norm_num) (by norm_num) (by norm_num)
      (by norm_num)]
    norm_num
  rw [he]
  have hm : roundHalfEven ((1/10 : ℚ) * (2 : ℚ) ^ (52 - (-4) : ℤ))
      = 7205759403792794 := by
    norm_num [roundHalfEven]
  rw [hm]
  norm_num

/-- Binary64 value of the decimal 0.3: `float('0.3')` is
0.2999999999999999888977697537422…, just below three tenths. -/
theorem roundB64_03 :
    roundB64 (3/10) = 5404319552844595/18014398509481984 := by
  rw [roundB64, if_neg (by norm_num), if_neg (by norm_num), roundB64Pos]
  have he : floorLog2 (3/10 : ℚ) = -2 := by
    rw [floorLog2_of_bounds _ 1 3 (by norm_num) (by norm_num) (by norm_num)
      (by norm_num)]
    norm_num
  rw [he]
  have hm : roundHalfEven ((3/10 : ℚ) * (2 : ℚ) ^ (52 - (-2) : ℤ))
      = 5404319552844595 := by
    norm_num [roundHalfEven]
  rw [hm]
  norm_num

/-- Binary64 product `float('0.1') * 3`: the exact product is halfway
between two binary64 neighbours and rounds to the even one,
0.30000000000000004440892098500626… — strictly above `float('0.3')`. -/
theorem roundB64_total01 :
    roundB64 (10808639105689191/36028797018963968)
      = 1351079888211149/4503599627370496 := by
  rw [roundB64, if_neg (by norm_num), if_neg (by norm_num), roundB64Pos]
  have he : floorLog2 (10808639105689191/36028797018963968 : ℚ) = -2 := by
    rw [floorLog2_of_bounds _ 53 55 (by norm_num) (by norm_num) (by norm_num)
      (by norm_num)]
    norm_num
  rw [he]
  have hm : roundHalfEven ((10808639105689191/36028797018963968 : ℚ)
      * (2 : ℚ) ^ (52 - (-2) : ℤ)) = 5404319552844596 := by
    norm_num [roundHalfEven]
  rw [hm]
  norm_num

/-- Shortest round-trip decimal of the float 2: one digit suffices. -/
theorem pyRepr_2 : pyRepr (2 : ℚ) = 2 := by
  rw [pyRepr, if_neg (by norm_num), if_neg (by norm_num)]
  unfold pyReprPos
  rw [pyReprFrom_step]
  have hsig : roundSigDec 1 (2 : ℚ) = 2 := by
    unfold roundSigDec
    have he : floorLog10 (2 : ℚ) = 0 := by
      rw [floorLog10_of_bounds _ 0 0 (by norm_num) (by norm_num) (by norm_num)
        (by norm_num)]
      norm_num
    rw [he]
    norm_num [roundHalfEven]
  rw [hsig, if_pos roundB64_2]

/-- Shortest round-trip decimal of the float 5: one digit suffices. -/
theorem pyRepr_5 : pyRepr (5 : ℚ) = 5 := by
  rw [pyRepr, if_neg (by norm_num), if_neg (by norm_num)]
  unfold pyReprPos
  rw [pyReprFrom_step]
  have hsig : roundSigDec 1 (5 : ℚ) = 5 := by
    unfold roundSigDec
    have he : floorLog10 (5 : ℚ) = 0 := by
      rw [floorLog10_of_bounds _ 0 0 (by norm_num) (by norm_num) (by norm_num)
        (by norm_num)]
      norm_num
    rw [he]
    norm_num [roundHalfEven]
  rw [hsig, if_pos roundB64_5]

/-- `str(float('0.1'))` is `'0.1'`: the one-digit decimal 0.1 round-trips,
so `Decimal(str(float('0.1')))` is exactly 0.1. -/
theorem pyRepr_01f :
    pyRepr (3602879701896397/36028797018963968) = 1/10 := by
  rw [pyRepr, if_neg (by norm_num), if_neg (by norm_num)]
  unfold pyReprPos
  rw [pyReprFrom_step]
  have hsig : roundSigDec 1 (3602879701896397/36028797018963968 : ℚ) = 1/10 := by
    unfold roundSigDec
    have he : floorLog10 (3602879701896397/36028797018963968 : ℚ) = -1 := by
      rw [floorLog10_of_bounds _ 15 16 (by norm_num) (by norm_num) (by norm_num)
        (by norm_num)]
      norm_num
    rw [he]
    norm_num [roundHalfEven]
  rw [hsig, if_pos roundB64_01]

/-- `str(float('0.3'))` is `'0.3'`: the one-digit decimal 0.3 round-trips,
so `Decimal(str(float('0.3')))` is exactly 0.3. -/
theorem pyRepr_03f :
    pyRepr (5404319552844595/18014398509481984) = 3/10 := by
  rw [pyRepr, if_neg (by norm_num), if_neg (by norm_num)]
  unfold pyReprPos
  rw [pyReprFrom_step]
  have hsig : roundSigDec 1 (5404319552844595/18014398509481984 : ℚ) = 3/10 := by
    unfold roundSigDec
    have he : floorLog10 (5404319552844595/18014398509481984 : ℚ) = -1 := by
      rw [floorLog10_of_bounds _ 15 16 (by norm_num) (by norm_num) (by norm_num)
        (by norm_num)]
      norm_num
    rw [he]
    norm_num [roundHalfEven]
  rw [hsig, if_pos roundB64_03]

/-- C1 counterexample.  First, `edit_order` performs no payment validation:
a store satisfying the payment invariant stops satisfying it after an edit
submitting status `'unpaid'` together with paid amount 5.  Second,
`add_order` validates a partial payment against the binary64 total
`float(price * quantity)`: with price 0.1, quantity 3 and paid amount 0.3
the float check passes, because `float('0.3')` is strictly below
`float('0.1') * 3 = 0.30000000000000004`, yet the stored decimals are
exactly 0.1 and 0.3, so the freshly added `'partial'` order has its paid
amount equal to its decimal total and already violates the invariant. -/
theorem C1_counterexample :
    edit_order
      { varieties := [⟨1, "Classic", 2⟩], shops := [⟨1, "Cafe A"⟩],
        orders := [⟨1, 1, 1, 2, 2, ⟨2024, 5, 1⟩, "unpaid", 0⟩] }
      1
      { variety_id := some 1, shop_id := some 1, quantity := some 2,
        price := some 2, delivery_date := some (some ⟨2024, 5, 1⟩),
        payment_status := "unpaid", paid_amount := some 5 }
      = .ok { varieties := [⟨1, "Classic", 2⟩], shops := [⟨1, "Cafe A"⟩],
              orders := [⟨1, 1, 1, 2, 2, ⟨2024, 5, 1⟩, "unpaid", 5⟩] } ∧
    storeInv { varieties := [⟨1, "Classic", 2⟩], shops := [⟨1, "Cafe A"⟩],
               orders := [⟨1, 1, 1, 2, 2, ⟨2024, 5, 1⟩, "unpaid", 0⟩] } ∧
    ¬ storeInv { varieties := [⟨1, "Classic", 2⟩], shops := [⟨1, "Cafe A"⟩],
                 orders := [⟨1, 1, 1, 2, 2, ⟨2024, 5, 1⟩, "unpaid", 5⟩] } ∧
    add_order
      { varieties := [⟨1, "Classic", 2⟩], shops := [⟨1, "Cafe A"⟩],
        orders := [] }
      { variety_id := some 1, shop_id := some 1, quantity := some 3,
        price := some (1/10), delivery_date := some (some ⟨2024, 5, 1⟩),
        payment_status := "partial", paid_amount := some (3/10) }
      2
      = .ok { varieties := [⟨1, "Classic", 2⟩], shops := [⟨1, "Cafe A"⟩],
              orders := [⟨2, 1, 1, 3, 1/10, ⟨2024, 5, 1⟩, "partial", 3/10⟩] } ∧
    ¬ storeInv { varieties := [⟨1, "Classic", 2⟩], shops := [⟨1, "Cafe A"⟩],
                 orders := [⟨2, 1, 1, 3, 1/10, ⟨2024, 5, 1⟩, "partial", 3/10⟩] } := by
  refine ⟨?_, ?_, ?_, ?_, ?_⟩
  · unfold edit_order
    dsimp only [Option.getD]
    rw [roundB64_2, roundB64_5, pyRepr_2, pyRepr_5]
    rfl
  · intro o ho
    simp only [List.mem_cons, List.not_mem_nil, or_false] at ho
    subst ho
    exact ⟨fun _ => rfl, fun h => absurd h (by decide), fun h => absurd h (by decide)⟩
  · intro h
    have h5 := (h ⟨1, 1, 1, 2, 2, ⟨2024, 5, 1⟩, "unpaid", 5⟩ (by simp)).1 rfl
    norm_num at h5
  · unfold add_order
    dsimp only [Option.getD]
    rw [roundB64_01, roundB64_03]
    rw [show (3602879701896397/36028797018963968 : ℚ) * ((3 : ℤ) : ℚ)
        = 10808639105689191/36028797018963968 from by norm_num]
    rw [roundB64_total01, pyRepr_01f, pyRepr_03f]
    rw [if_neg (by norm_num), if_neg (by norm_num)]
    rw [if_neg (fun hc => absurd hc.2 (by norm_num))]
    rfl
  · intro h
    have hbad :=
      (h ⟨2, 1, 1, 3, 1/10, ⟨2024, 5, 1⟩, "partial", 3/10⟩ (by simp)).2.2 rfl
    have h3 := hbad.2
    norm_num [orderTotal] at h3

/-- Helper: the payment invariant of an explicitly given order, stated on
the bare fields. -/
theorem orderPaymentInv_mk (idv vidv sidv qv : ℤ) (pv : ℚ) (dv : DDate)
    (st : String) (pa : ℚ)
    (h : (st = "unpaid" → pa = 0) ∧ (st = "paid" → pa = pv * qv) ∧
         (st = "partial" → 0 < pa ∧ pa < pv * qv)) :
    orderPaymentInv ⟨idv, vidv, sidv, qv, pv, dv, st, pa⟩ := h

/-- C1 amended: `add_order` validates payments in binary64 float arithmetic
and the payment routes store `Decimal(str(...))` of binary64 values, so the
payment invariant on the stored decimals is preserved by `add_order`,
`mark_order_paid` and `mark_all_orders_paid` only when the submitted price
and paid amount, and the affected totals, are exactly representable in
binary64 and are fixed points of the shortest-decimal representation;
without those hypotheses a freshly added `'partial'` order can violate the
invariant, and `edit_order` stores the submitted payment fields with no
validation at all (`C1_counterexample`). -/
theorem C1_payment_invariant (s : Store) (f : OrderForm)
    (newId orderId shopId : ℤ) (hinv : storeInv s)
    (hp : roundB64 (f.price.getD 0) = f.price.getD 0)
    (hpr : pyRepr (f.price.getD 0) = f.price.getD 0)
    (ht : roundB64 (f.price.getD 0 * ((f.quantity.getD 0 : ℤ) : ℚ))
        = f.price.getD 0 * ((f.quantity.getD 0 : ℤ) : ℚ))
    (htr : pyRepr (f.price.getD 0 * ((f.quantity.getD 0 : ℤ) : ℚ))
        = f.price.getD 0 * ((f.quantity.getD 0 : ℤ) : ℚ))
    (ha : roundB64 (f.paid_amount.getD 0) = f.paid_amount.getD 0)
    (har : pyRepr (f.paid_amount.getD 0) = f.paid_amount.getD 0)
    (hall : ∀ o ∈ s.orders,
        roundB64 (orderTotal o) = orderTotal o ∧
        pyRepr (orderTotal o) = orderTotal o) :
    (∀ s', add_order s f newId = .ok s' → storeInv s') ∧
    (∀ s', mark_order_paid s orderId = .ok s' → storeInv s') ∧
    (∀ s', mark_all_orders_paid s shopId = .ok s' → storeInv s') := by
  refine ⟨?_, ?_, ?_⟩
  · intro s' hok
    obtain ⟨fv, fs, fq, fp, fd, fst, fpa⟩ := f
    unfold add_order at hok
    rcases fv with _ | vid
    · exact absurd hok (by simp)
    rcases fs with _ | sid
    · exact absurd hok (by simp)
    rcases fq with _ | q
    · exact absurd hok (by simp)
    rcases fp with _ | p
    · exact absurd hok (by simp)
    rcases fd with _ | dParse
    · exact absurd hok (by simp)
    dsimp only at hok
    simp only [Option.getD_some] at hp hpr ht htr
    rw [hp] at hok
    rw [ht] at hok
    rw [hpr] at hok
    rw [htr] at hok
    rw [ha] at hok
    rw [har] at hok
    split at hok
    · exact absurd hok (by simp)
    split at hok
    · exact absurd hok (by simp)
    split at hok
    · exact absurd hok (by simp)
    rename_i hnotpartial
    rcases dParse with _ | d
    · exact absurd hok (by simp)
    dsimp only at hok
    split at hok
    · exact absurd hok (by simp)
    split at hok
    · exact absurd hok (by simp)
    cases hok
    intro o ho
    rw [List.mem_append] at ho
    rcases ho with ho | ho
    · exact hinv o ho
    simp only [List.mem_singleton] at ho
    subst ho
    apply orderPaymentInv_mk
    by_cases hpaid : coerceStatus fst = "paid"
    · refine ⟨fun hun => ?_, fun _ => ?_, fun hpt => ?_⟩
      · rw [hpaid] at hun
        exact absurd hun (by decide)
      · rw [if_pos hpaid]
      · rw [hpaid] at hpt
        exact absurd hpt (by decide)
    · by_cases hpart : coerceStatus fst = "partial"
      · rw [not_and] at hnotpartial
        have hrange := hnotpartial hpart
        rw [not_or] at hrange
        refine ⟨fun hun => ?_, fun hpd => ?_, fun _ => ?_⟩
        · rw [hpart] at hun
          exact absurd hun (by decide)
        · rw [hpart] at hpd
          exact absurd hpd (by decide)
        · rw [if_neg hpaid, if_pos hpart]
          exact ⟨lt_of_not_le hrange.1, lt_of_not_le hrange.2⟩
      · refine ⟨fun _ => ?_, fun hpd => absurd hpd hpaid, fun hpt => absurd hpt hpart⟩
        rw [if_neg hpaid, if_neg hpart]
  · intro s' hok
    unfold mark_order_paid at hok
    split at hok
    · exact absurd hok (by simp)
    cases hok
    intro o ho
    simp only [List.mem_map] at ho
    obtain ⟨a, hmem, hao⟩ := ho
    by_cases hid : a.id = orderId
    · rw [if_pos hid] at hao
      subst hao
      exact orderPaymentInv_mk _ _ _ _ _ _ _ _
        ⟨fun h => absurd h (by decide),
         fun _ => show pyRepr (roundB64 (orderTotal a)) = orderTotal a by
           rw [(hall a hmem).1]; exact (hall a hmem).2,
         fun h => absurd h (by decide)⟩
    · rw [if_neg hid] at hao
      subst hao
      exact hinv a hmem
  · intro s' hok
    unfold mark_all_orders_paid at hok
    split at hok
    · exact absurd hok (by simp)
    cases hok
    intro o ho
    simp only [List.mem_map] at ho
    obtain ⟨a, hmem, hao⟩ := ho
    by_cases hcond : a.shop_id = shopId ∧
        0 < roundB64 (roundB64 (orderTotal a) - roundB64 (orderPaid a))
    · rw [if_pos hcond] at hao
      subst hao
      exact orderPaymentInv_mk _ _ _ _ _ _ _ _
        ⟨fun h => absurd h (by decide),
         fun _ => show pyRepr (roundB64 (orderTotal a)) = orderTotal a by
           rw [(hall a hmem).1]; exact (hall a hmem).2,
         fun h => absurd h (by decide)⟩
    · rw [if_neg hcond] at hao
      subst hao
      exact hinv a hmem

/-- Concrete instantiation of `C1_payment_invariant`: adding an unpaid
order with price 2 and quantity 1 — every conversion exact — to an
invariant-satisfying store preserves the invariant. -/
theorem C1_payment_invariant_witness :
    storeInv { varieties := [⟨1, "Classic", 2⟩], shops := [⟨1, "Cafe A"⟩],
               orders := [⟨9, 1, 1, 1, 2, ⟨2024, 5, 1⟩, "unpaid", 0⟩] } := by
  have hmul : (2 : ℚ) * ((1 : ℤ) : ℚ) = 2 := by norm_num
  refine (C1_payment_invariant
      { varieties := [⟨1, "Classic", 2⟩], shops := [⟨1, "Cafe A"⟩], orders := [] }
      { variety_id := some 1, shop_id := some 1, quantity := some 1,
        price := some 2, delivery_date := some (some ⟨2024, 5, 1⟩),
        payment_status := "unpaid", paid_amount := none }
      9 1 1 (fun o ho => absurd ho (List.not_mem_nil o))
      ?_ ?_ ?_ ?_ ?_ ?_ (fun o ho => absurd ho (List.not_mem_nil o))).1
    { varieties := [⟨1, "Classic", 2⟩], shops := [⟨1, "Cafe A"⟩],
      orders := [⟨9, 1, 1, 1, 2, ⟨2024, 5, 1⟩, "unpaid", 0⟩] } ?_
  · show roundB64 2 = 2
    exact roundB64_2
  · show pyRepr 2 = 2
    exact pyRepr_2
  · show roundB64 (2 * ((1 : ℤ) : ℚ)) = 2 * ((1 : ℤ) : ℚ)
    rw [hmul]
    exact roundB64_2
  · show pyRepr (2 * ((1 : ℤ) : ℚ)) = 2 * ((1 : ℤ) : ℚ)
    rw [hmul]
    exact pyRepr_2
  · show roundB64 0 = 0
    rfl
  · show pyRepr 0 = 0
    rfl
  · unfold add_order
    dsimp only [Option.getD]
    rw [roundB64_2, pyRepr_2]
    rfl

/-! ## C10: the spreadsheet order parser `get_orders` -/

/-- Value of a digit string (most significant first). -/
def digitsVal : List Char → ℕ → ℕ
  | [], acc => acc
  | c :: cs, acc => digitsVal cs (acc * 10 + (c.toNat - '0'.toNat))

/-- Parse a nonempty all-digit character list. -/
def parseDigits (l : List Char) : Option ℕ :=
  if l.isEmpty then none
  else if l.all (fun c => c.isDigit) then some (digitsVal l 0) else none

/-- Python's `int(s)` on the strings occurring in sheet cells: an optional
minus sign followed by digits; anything else raises `ValueError`. -/
def pyInt (s : String) : Option ℤ :=
  match s.data with
  | '-' :: rest => (parseDigits rest).map (fun n => -(n : ℤ))
  | l => (parseDigits l).map (fun n => (n : ℤ))

/-- Unsigned decimal numeral with an optional fractional part. -/
def parseUnsignedDec (l : List Char) : Option ℚ :=
  match l.splitOn '.' with
  | [ip] => (parseDigits ip).map (fun n => (n : ℚ))
  | [ip, fp] =>
    match parseDigits ip, parseDigits fp with
    | some n, some f => some ((n : ℚ) + (f : ℚ) / (10 : ℚ) ^ fp.length)
    | _, _ => none
  | _ => none

/-- Python's `float(s)` on the decimal numerals occurring in sheet cells
(the cells are written by the app itself via `str`): optional sign, integer
part, optional fractional part; anything else raises `ValueError`. -/
def pyFloat (s : String) : Option ℚ :=
  match s.data with
  | '-' :: rest => (parseUnsignedDec rest).map Neg.neg
  | l => parseUnsignedDec l

/-- `Decimal(s)` on the same numeral grammar; a failure raises
`decimal.InvalidOperation`, which derives from `ArithmeticError` and is NOT
caught by the `except (ValueError, IndexError)` handler of `get_orders`. -/
def pyDecimal (s : String) : Option ℚ := pyFloat s

/-- Python `int()` applied to a float value: truncation toward zero. -/
def truncToInt (q : ℚ) : ℤ := Int.tdiv q.num q.den

/-- Day count of a month, as validated by `datetime.strptime`. -/
def daysInMonth (y : ℤ) (m : ℕ) : ℕ :=
  if m = 2 then (if (y % 4 = 0 ∧ ¬ y % 100 = 0) ∨ y % 400 = 0 then 29 else 28)
  else if m = 4 ∨ m = 6 ∨ m = 9 ∨ m = 11 then 30 else 31

/-- `datetime.strptime(s, '%Y-%m-%d').date()`: dash-separated numeric
year, month and day forming a valid calendar date; otherwise
`ValueError`. -/
def pyDate (s : String) : Option DDate :=
  match s.data.splitOn '-' with
  | [ys, ms, ds] =>
    match parseDigits ys, parseDigits ms, parseDigits ds with
    | some y, some m, some d =>
      if 1 ≤ m ∧ m ≤ 12 ∧ 1 ≤ d ∧ d ≤ daysInMonth y m then some ⟨y, m, d⟩
      else none
    | _, _, _ => none
  | _ => none

/-- `datetime.strptime(s, '%Y-%m-%d %H:%M:%S')`: a date part and a
colon-separated time part. -/
def pyDateTime (s : String) : Option (DDate × ℕ × ℕ × ℕ) :=
  match s.data.splitOn ' ' with
  | [dpart, tpart] =>
    match pyDate ⟨dpart⟩, tpart.splitOn ':' with
    | some d, [hs, ms2, ss] =>
      match parseDigits hs, parseDigits ms2, parseDigits ss with
      | some h, some mi, some sec =>
        if h ≤ 23 ∧ mi ≤ 59 ∧ sec ≤ 59 then some (d, h, mi, sec) else none
      | _, _, _ => none
    | _, _ => none
  | _ => none

/-- An order as returned by `get_orders` (src/google_sheets.py
lines 445-469): `id` is the sheet row number; an empty variety/shop cell
yields `none`, an empty quantity yields 0, empty price/paid cells yield 0,
an empty date cell yields `none`, and an empty created-at cell stands for
`get_ist_now()` (modelled as `none`). -/
structure GOrder where
  id : ℕ
  variety_id : Option ℤ
  shop_id : Option ℤ
  quantity : ℤ
  price : ℚ
  delivery_date : Option DDate
  payment_status : String
  paid_amount : ℚ
  created_at : Option (DDate × ℕ × ℕ × ℕ)
deriving DecidableEq

/-- Outcome of processing one data row: silently skipped
(`except (ValueError, IndexError): continue`), an uncaught
`decimal.InvalidOperation`, or an order. -/
inductive RowOut where
  | skip : RowOut
  | raiseInvalidOperation : RowOut
  | okRow (o : GOrder) : RowOut
deriving DecidableEq

/-- Cell access with Python's empty-string falsiness for missing cells. -/
def cell (row : List String) (j : ℕ) : String := row.getD j ""

/-- Processing of one data row of the Orders sheet by `get_orders`
(src/google_sheets.py lines 452-468), in the evaluation order of the dict
literal: rows shorter than 8 cells are not processed; `variety_id`,
`shop_id`, `quantity`, `delivery_date` and `created_at` failures raise
`ValueError`, which the handler catches (skip); a nonempty `price` or
`paid_amount` cell that `Decimal` cannot parse raises
`decimal.InvalidOperation`, which is not caught. -/
def parse_order_row (i : ℕ) (row : List String) : RowOut :=
  if row.length < 8 then .skip
  else
    match (if cell row 0 = "" then some none else (pyInt (cell row 0)).map some) with
    | none => .skip
    | some vid =>
      match (if cell row 1 = "" then some none else (pyInt (cell row 1)).map some) with
      | none => .skip
      | some sid =>
        match (if cell row 2 = "" then some 0 else (pyFloat (cell row 2)).map truncToInt) with
        | none => .skip
        | some qty =>
          match (if cell row 3 = "" then some 0 else pyDecimal (cell row 3)) with
          | none => .raiseInvalidOperation
          | some price =>
            match (if cell row 4 = "" then some none else (pyDate (cell row 4)).map some) with
            | none => .skip
            | some dd =>
              match (if cell row 6 = "" then some 0 else pyDecimal (cell row 6)) with
              | none => .raiseInvalidOperation
              | some paid =>
                match (if cell row 7 = "" then some none
                       else (pyDateTime (cell row 7)).map some) with
                | none => .skip
                | some created =>
                  .okRow ⟨i, vid, sid, qty, price, dd, cell row 5, paid, created⟩

/-- Row loop of `get_orders`: data rows enumerated from sheet row 2. -/
def get_orders_go : ℕ → List (List String) → Except String (List GOrder)
  | _, [] => .ok []
  | i, row :: rest =>
    match parse_order_row i row with
    | .skip => get_orders_go (i + 1) rest
    | .raiseInvalidOperation => .error "decimal.InvalidOperation"
    | .okRow o =>
      match get_orders_go (i + 1) rest with
      | .ok os => .ok (o :: os)
      | .error e => .error e

/-- `get_orders` (src/google_sheets.py lines 445-469): `if not rows:
return []`, then process `rows[1:]` with `enumerate(..., start=2)`.
`Except.error` models the uncaught `decimal.InvalidOperation`. -/
def get_orders (rows : List (List String)) : Except String (List GOrder) :=
  if rows.isEmpty then .ok []
  else get_orders_go 2 (rows.drop 1)

/-- A successfully parsed row carries its sheet row number as id and the
raw status cell. -/
theorem parse_order_row_ok_id (i : ℕ) (row : List String) (o : GOrder)
    (h : parse_order_row i row = .okRow o) :
    o.id = i ∧ o.payment_status = cell row 5 := by
  unfold parse_order_row at h
  split at h
  · exact absurd h (by simp)
  · split at h
    · exact absurd h (by simp)
    · split at h
      · exact absurd h (by simp)
      · split at h
        · exact absurd h (by simp)
        · split at h
          · exact absurd h (by simp)
          · split at h
            · exact absurd h (by simp)
            · split at h
              · exact absurd h (by simp)
              · split at h
                · exact absurd h (by simp)
                · cases h
                  exact ⟨rfl, rfl⟩

/-- Rows that parse raise only through the two `Decimal` conversions. -/
theorem parse_order_row_raise (i : ℕ) (row : List String)
    (h : parse_order_row i row = .raiseInvalidOperation) :
    (cell row 3 ≠ "" ∧ pyDecimal (cell row 3) = none) ∨
    (cell row 6 ≠ "" ∧ pyDecimal (cell row 6) = none) := by
  unfold parse_order_row at h
  split at h
  · exact absurd h (by simp)
  · split at h
    · exact absurd h (by simp)
    · split at h
      · exact absurd h (by simp)
      · split at h
        · exact absurd h (by simp)
        · split at h
          · rename_i heq
            left
            by_cases hc : cell row 3 = ""
            · rw [if_pos hc] at heq
              exact absurd heq (by simp)
            · rw [if_neg hc] at heq
              exact ⟨hc, heq⟩
          · split at h
            · exact absurd h (by simp)
            · split at h
              · rename_i heq
                right
                by_cases hc : cell row 6 = ""
                · rw [if_pos hc] at heq
                  exact absurd heq (by simp)
                · rw [if_neg hc] at heq
                  exact ⟨hc, heq⟩
              · split at h
                · exact absurd h (by simp)
                · exact absurd h (by simp)

/-- Row numbers only grow along the row loop. -/
theorem get_orders_go_ids (l : List (List String)) (i : ℕ) (os : List GOrder)
    (h : get_orders_go i l = .ok os) : ∀ o ∈ os, i ≤ o.id := by
  induction l generalizing i os with
  | nil =>
    unfold get_orders_go at h
    cases h
    intro o ho
    cases ho
  | cons row rest ih =>
    unfold get_orders_go at h
    cases hp : parse_order_row i row with
    | skip =>
      rw [hp] at h
      intro o ho
      exact le_trans (Nat.le_succ i) (ih (i + 1) os h o ho)
    | raiseInvalidOperation =>
      rw [hp] at h
      exact absurd h (by simp)
    | okRow o0 =>
      rw [hp] at h
      cases hr : get_orders_go (i + 1) rest with
      | ok os' =>
        rw [hr] at h
        cases h
        intro o ho
        rcases List.mem_cons.1 ho with rfl | ho
        · rw [(parse_order_row_ok_id i row o hp).1]
        · exact le_trans (Nat.le_succ i) (ih (i + 1) os' hr o ho)
      | error e =>
        rw [hr] at h
        exact absurd h (by simp)

/-- C10 counterexample: `get_orders` is not total and does not skip every
malformed row.  A row whose price cell is `"abc"` raises
`decimal.InvalidOperation` (not caught by the `ValueError`/`IndexError`
handler), and a row with an empty delivery-date cell is returned with no
parsed delivery date rather than being skipped. -/
theorem C10_counterexample :
    get_orders [["Variety ID", "Shop ID", "Quantity", "Price", "Delivery Date",
                 "Payment Status", "Paid Amount", "Created At"],
                ["1", "1", "2", "abc", "2024-01-05", "unpaid", "0", ""]]
      = .error "decimal.InvalidOperation" ∧
    get_orders [["Variety ID", "Shop ID", "Quantity", "Price", "Delivery Date",
                 "Payment Status", "Paid Amount", "Created At"],
                ["1", "1", "2", "25", "", "unpaid", "0", ""]]
      = .ok [⟨2, some 1, some 1, 2, 25, none, "unpaid", 0, none⟩] ∧
    (GOrder.delivery_date ⟨2, some 1, some 1, 2, 25, none, "unpaid", 0, none⟩)
      = none :=
  ⟨rfl, rfl, rfl⟩

/-- C10 amended: `get_orders` skips rows with fewer than 8 cells and rows
whose `variety_id`, `shop_id`, `quantity`, delivery-date or created-at
fields raise `ValueError`; a nonempty price or paid-amount cell that
`Decimal` cannot parse instead raises an uncaught
`decimal.InvalidOperation`, which aborts the whole call; every returned
order has the integer sheet row number (at least 2) as id and carries the
raw status cell. -/
theorem C10_get_orders (rows : List (List String)) (i : ℕ) (row : List String)
    (o : GOrder) :
    (∀ os, get_orders rows = .ok os → ∀ x ∈ os, 2 ≤ x.id) ∧
    (row.length < 8 → parse_order_row i row = .skip) ∧
    (parse_order_row i row = .raiseInvalidOperation →
      (cell row 3 ≠ "" ∧ pyDecimal (cell row 3) = none) ∨
      (cell row 6 ≠ "" ∧ pyDecimal (cell row 6) = none)) ∧
    (parse_order_row i row = .okRow o →
      o.id = i ∧ o.payment_status = cell row 5) := by
  refine ⟨?_, ?_, parse_order_row_raise i row, parse_order_row_ok_id i row o⟩
  · intro os h
    unfold get_orders at h
    split at h
    · cases h
      intro x hx
      cases hx
    · exact get_orders_go_ids (rows.drop 1) 2 os h
  · intro hlen
    unfold parse_order_row
    rw [if_pos hlen]

/-- Concrete instantiation of `C10_get_orders`: the single order parsed
from a one-row sheet has id 2. -/
theorem C10_get_orders_witness :
    2 ≤ (GOrder.id ⟨2, some 1, some 1, 2, 25, some ⟨2024, 1, 5⟩, "unpaid", 0, none⟩) :=
  (C10_get_orders
      [["Variety ID", "Shop ID", "Quantity", "Price", "Delivery Date",
        "Payment Status", "Paid Amount", "Created At"],
       ["1", "1", "2", "25", "2024-01-05", "unpaid", "0", ""]] 2 []
      ⟨2, none, none, 0, 0, none, "", 0, none⟩).1
    [⟨2, some 1, some 1, 2, 25, some ⟨2024, 1, 5⟩, "unpaid", 0, none⟩] rfl
    ⟨2, some 1, some 1, 2, 25, some ⟨2024, 1, 5⟩, "unpaid", 0, none⟩
    (by simp)

end BrownieBusiness
